import Mathlib

/-!
Verification of the akatsuki-pp-rs difficulty/performance engine against its
natural-language specification.

The Rust sources are shallowly embedded: `u32`/`usize` values become `Nat`
(none of the verified claims concerns integer wraparound), `f64` values become
`ℚ` where the source only uses field operations and comparisons, and `ℝ` where
transcendental functions (`powf`, `ln`, `log10`, `sin`, `exp`) appear.
Stateful code is embedded as explicit state passing.
-/

namespace LQ

/-- Embedding of `LimitedQueue<T, N>` from `src/util/limited_queue.rs`.
The const generic `N` is represented by the length of the `queue` list,
which every operation preserves. -/
structure LimitedQueue (α : Type) where
  queue : List α
  endIdx : Nat
  len : Nat
deriving Repr, DecidableEq

/-- Mirrors `Default::default()` for `LimitedQueue` (`limited_queue.rs` lines 26-32):
`end = N - 1`, queue filled with `T::default()` (here an explicit `a0`), `len = 0`. -/
def LimitedQueue.mkDefault (a0 : α) (N : Nat) : LimitedQueue α :=
  { queue := List.replicate N a0, endIdx := N - 1, len := 0 }

/-- Mirrors `LimitedQueue::push` (`limited_queue.rs` lines 45-49). -/
def LimitedQueue.push (q : LimitedQueue α) (elem : α) : LimitedQueue α :=
  let N := q.queue.length
  let e := (q.endIdx + 1) % N
  { queue := q.queue.set e elem
    endIdx := e
    len := q.len + (if q.len < N then 1 else 0) }

/-- Mirrors `LimitedQueue::is_full` (`limited_queue.rs` lines 56-58). -/
def LimitedQueue.isFull (q : LimitedQueue α) : Bool :=
  q.len = q.queue.length

/-- Mirrors `impl Index for LimitedQueue` (`limited_queue.rs` lines 148-156):
`idx = (idx + usize::from(len == N) * (end + 1)) % N`.  Out-of-range raw
access is total here via `getD`; all verified accesses are in range. -/
def LimitedQueue.get (q : LimitedQueue α) (idx : Nat) (d : α) : α :=
  let N := q.queue.length
  q.queue.getD ((idx + (if q.len = N then 1 else 0) * (q.endIdx + 1)) % N) d

/-- Mirrors `LimitedQueue::as_slices` (`limited_queue.rs` lines 73-79) with the two
slices concatenated, which is exactly the element sequence that
`LimitedQueue::iter` (lines 81-88, forward iteration of head then tail)
yields. -/
def LimitedQueue.iterList (q : LimitedQueue α) : List α :=
  if q.isFull then
    q.queue.drop (q.endIdx + 1) ++ q.queue.take (q.endIdx + 1)
  else
    q.queue.take q.len

/-- Pushing a whole list of elements in order. -/
def LimitedQueue.pushAll (q : LimitedQueue α) (xs : List α) : LimitedQueue α :=
  xs.foldl LimitedQueue.push q

lemma getD_eq_getD_of_getElem {α : Type} {l l' : List α} {m n : Nat} (d : α)
    (hm : m < l.length) (hn : n < l'.length) (h : l[m] = l'[n]) :
    l.getD m d = l'.getD n d := by
  rw [List.getD_eq_getElem l d hm, List.getD_eq_getElem l' d hn, h]

lemma mod_ne_mod_of_sub_lt {a b N : Nat} (hab : a < b) (h : b - a < N) :
    a % N ≠ b % N := by
  intro hEq
  have hN : 0 < N := by omega
  have ha := Nat.div_add_mod a N
  have hb := Nat.div_add_mod b N
  have hdiv : a / N < b / N := by
    by_contra hcon
    push_neg at hcon
    have : N * (b / N) ≤ N * (a / N) := Nat.mul_le_mul_left _ hcon
    omega
  have hstep : N * (a / N) + N ≤ N * (b / N) := by
    have h1 : a / N + 1 ≤ b / N := Nat.succ_le_of_lt hdiv
    have h2 : N * (a / N + 1) ≤ N * (b / N) := Nat.mul_le_mul_left _ h1
    have h3 : N * (a / N + 1) = N * (a / N) + N := Nat.mul_succ N (a / N)
    omega
  omega

/-- The invariant tied to a `LimitedQueue` that started out as
`mkDefault a0 N` and has since absorbed the pushes `xs`:  the raw buffer
holds the last `min xs.length N` pushed values, value `xs[j]` sitting in
slot `j % N`. -/
def Inv (N : Nat) (xs : List α) (q : LimitedQueue α) : Prop :=
  q.queue.length = N ∧
  q.len = min xs.length N ∧
  q.endIdx = (N - 1 + xs.length) % N ∧
  ∀ j, xs.length - min xs.length N ≤ j → (hj : j < xs.length) →
    ∀ d, q.queue.getD (j % N) d = xs.getD j d

lemma inv_mkDefault (a0 : α) (N : Nat) (hN : 1 ≤ N) :
    Inv N [] (LimitedQueue.mkDefault a0 N) := by
  refine ⟨List.length_replicate _ _, by simp [LimitedQueue.mkDefault], ?_, ?_⟩
  · simp [LimitedQueue.mkDefault, Nat.mod_eq_of_lt (by omega : N - 1 < N)]
  · intro j _ hj
    simp at hj

lemma push_queue (q : LimitedQueue α) (x : α) :
    (q.push x).queue = q.queue.set ((q.endIdx + 1) % q.queue.length) x := rfl

lemma push_endIdx (q : LimitedQueue α) (x : α) :
    (q.push x).endIdx = (q.endIdx + 1) % q.queue.length := rfl

lemma push_len (q : LimitedQueue α) (x : α) :
    (q.push x).len = q.len + (if q.len < q.queue.length then 1 else 0) := rfl

lemma inv_push {N : Nat} {xs : List α} {q : LimitedQueue α} (hN : 1 ≤ N)
    (h : Inv N xs q) (x : α) : Inv N (xs ++ [x]) (q.push x) := by
  obtain ⟨hlen, hqlen, hend, hget⟩ := h
  have hN0 : 0 < N := hN
  have hendk : (q.endIdx + 1) % N = xs.length % N := by
    rw [hend, Nat.mod_add_mod]
    have harith : N - 1 + xs.length + 1 = xs.length + N := by omega
    rw [harith, Nat.add_mod_right]
  refine ⟨?_, ?_, ?_, ?_⟩
  · rw [push_queue, List.length_set, hlen]
  · rw [push_len, hqlen, hlen, List.length_append]
    simp only [List.length_singleton]
    rcases Nat.lt_or_ge xs.length N with h1 | h1
    · rw [if_pos (by omega)]; omega
    · rw [if_neg (by omega)]; omega
  · rw [push_endIdx, hlen, hend, Nat.mod_add_mod, List.length_append]
    simp only [List.length_singleton]
    rfl
  · intro j hjlo hjhi d
    rw [List.length_append, List.length_singleton] at hjlo hjhi
    rw [push_queue, hlen]
    have hsetlen : (q.queue.set ((q.endIdx + 1) % N) x).length = N := by
      rw [List.length_set, hlen]
    have hjN : j % N < N := Nat.mod_lt _ hN0
    rcases Nat.lt_or_ge j xs.length with hjk | hjk
    · -- an older element: the newly written slot `xs.length % N` is untouched
      have hne : j % N ≠ (q.endIdx + 1) % N := by
        rw [hendk]
        exact mod_ne_mod_of_sub_lt hjk (by omega)
      have step : (q.queue.set ((q.endIdx + 1) % N) x).getD (j % N) d =
          q.queue.getD (j % N) d := by
        refine getD_eq_getD_of_getElem d (by omega) (by omega) ?_
        rw [List.getElem_set]
        exact if_neg (fun hcontra => hne hcontra.symm)
      rw [step, hget j (by omega) hjk d]
      exact (List.getD_append _ _ d j hjk).symm
    · -- j = xs.length: the element just pushed
      have hjk' : j = xs.length := by omega
      have hcond : (q.endIdx + 1) % N = j % N := by rw [hendk, hjk']
      have step : (q.queue.set ((q.endIdx + 1) % N) x).getD (j % N) d = x := by
        rw [List.getD_eq_getElem _ d (by omega :
          j % N < (q.queue.set ((q.endIdx + 1) % N) x).length)]
        rw [List.getElem_set, if_pos hcond]
      rw [step]
      rw [List.getD_eq_getElem _ d
        (by rw [List.length_append, List.length_singleton]; omega),
        List.getElem_append_right (by omega)]
      simp [hjk']

lemma inv_pushAll (a0 : α) (N : Nat) (hN : 1 ≤ N) (xs : List α) :
    Inv N xs ((LimitedQueue.mkDefault a0 N).pushAll xs) := by
  induction xs using List.reverseRecOn with
  | nil => exact inv_mkDefault a0 N hN
  | append_singleton ys y ih =>
      have : (LimitedQueue.mkDefault a0 N).pushAll (ys ++ [y]) =
          ((LimitedQueue.mkDefault a0 N).pushAll ys).push y := by
        simp [LimitedQueue.pushAll, List.foldl_concat]
      rw [this]
      exact inv_push hN ih y

lemma get_def (q : LimitedQueue α) (idx : Nat) (d : α) :
    q.get idx d = q.queue.getD
      ((idx + (if q.len = q.queue.length then 1 else 0) * (q.endIdx + 1)) %
        q.queue.length) d := rfl

lemma index_mod {N k : Nat} (hN : 0 < N) (hk : N ≤ k) (i : Nat) :
    (i + ((N - 1 + k) % N + 1)) % N = (k - N + i) % N := by
  calc (i + ((N - 1 + k) % N + 1)) % N
      = (i % N + ((N - 1 + k) % N + 1) % N) % N := Nat.add_mod _ _ _
    _ = (i % N + (N - 1 + k + 1) % N) % N := by
        rw [Nat.mod_add_mod (N - 1 + k) N 1]
    _ = (i % N + k % N) % N := by
        have harith : N - 1 + k + 1 = k + N := by omega
        rw [harith, Nat.add_mod_right]
    _ = (i + k) % N := (Nat.add_mod i k N).symm
    _ = (k - N + i) % N := by
        have harith : i + k = k - N + i + N := by omega
        rw [harith, Nat.add_mod_right]

lemma get_of_inv {N : Nat} {xs : List α} {q : LimitedQueue α} (hN : 1 ≤ N)
    (h : Inv N xs q) {i : Nat} (hi : i < min xs.length N) (d : α) :
    q.get i d = xs.getD (xs.length - min xs.length N + i) d := by
  obtain ⟨hlen, hqlen, hend, hget⟩ := h
  have hN0 : 0 < N := hN
  rw [get_def, hlen]
  rcases Nat.lt_or_ge xs.length N with hk | hk
  · -- queue not yet full: element `i` sits at raw index `i`
    have hlenq : ¬ q.len = N := by rw [hqlen]; omega
    rw [if_neg hlenq, Nat.zero_mul, Nat.add_zero,
      Nat.mod_eq_of_lt (by omega : i < N)]
    have hres := hget i (by omega) (by omega) d
    rw [Nat.mod_eq_of_lt (by omega : i < N)] at hres
    rw [hres]
    congr 1
    omega
  · -- queue full: element `i` sits at raw index `(end + 1 + i) % N`
    have hlenq : q.len = N := by rw [hqlen]; omega
    rw [if_pos hlenq, Nat.one_mul, hend]
    have hidx : (i + ((N - 1 + xs.length) % N + 1)) % N =
        (xs.length - N + i) % N := index_mod hN0 hk i
    rw [hidx]
    have hres := hget (xs.length - N + i) (by omega) (by omega) d
    rw [hres]
    congr 1
    omega

lemma iterList_of_inv {N : Nat} {xs : List α} {q : LimitedQueue α} (hN : 1 ≤ N)
    (h : Inv N xs q) : q.iterList = xs.drop (xs.length - N) := by
  obtain ⟨hlen, hqlen, hend, hget⟩ := h
  have hN0 : 0 < N := hN
  have hendlt : q.endIdx < N := by rw [hend]; exact Nat.mod_lt _ hN0
  unfold LimitedQueue.iterList
  rcases Nat.lt_or_ge xs.length N with hk | hk
  · -- not full: the two slices are `[]` and `queue[0..len]`
    have hfull : q.isFull = false := by
      simp only [LimitedQueue.isFull, hqlen, hlen, decide_eq_false_iff_not]
      omega
    rw [if_neg (by simp [hfull])]
    have hdrop : xs.length - N = 0 := by omega
    rw [hdrop, List.drop_zero, hqlen]
    have hminkN : min xs.length N = xs.length := by omega
    rw [hminkN]
    apply List.ext_getElem
    · rw [List.length_take, hlen]; omega
    · intro i h1 h2
      rw [List.getElem_take]
      have hiN : i < N := by omega
      have hres := hget i (by omega) h2 (xs[i])
      rw [Nat.mod_eq_of_lt hiN] at hres
      rw [List.getD_eq_getElem q.queue _ (by rw [hlen]; exact hiN),
        List.getD_eq_getElem xs _ h2] at hres
      exact hres
  · -- full: slices are `queue[end+1..N]` and `queue[0..=end]`
    have hfull : q.isFull = true := by
      simp only [LimitedQueue.isFull, hqlen, hlen, decide_eq_true_eq]
      omega
    rw [if_pos hfull]
    apply List.ext_getElem
    · rw [List.length_append, List.length_drop, List.length_take, hlen,
        List.length_drop]
      omega
    · intro i h1 h2
      have h2' : i < N := by rw [List.length_drop] at h2; omega
      rw [List.getElem_drop]
      have hjlt : xs.length - N + i < xs.length := by omega
      have hslot := hget (xs.length - N + i) (by omega) hjlt (xs[xs.length - N + i])
      have hjmod : (xs.length - N + i) % N = (i + (q.endIdx + 1)) % N := by
        rw [hend]
        exact (index_mod hN0 hk i).symm
      rw [hjmod] at hslot
      rcases Nat.lt_or_ge i (N - (q.endIdx + 1)) with hcase | hcase
      · rw [List.getElem_append_left (by rw [List.length_drop, hlen]; omega)]
        rw [List.getElem_drop]
        have hmodval : (i + (q.endIdx + 1)) % N = q.endIdx + 1 + i := by
          rw [Nat.mod_eq_of_lt (by omega)]; omega
        rw [hmodval] at hslot
        rw [List.getD_eq_getElem q.queue _ (by rw [hlen]; omega),
          List.getD_eq_getElem xs _ hjlt] at hslot
        exact hslot
      · rw [List.getElem_append_right (by rw [List.length_drop, hlen]; omega)]
        rw [List.getElem_take]
        have hmodval : (i + (q.endIdx + 1)) % N = i + (q.endIdx + 1) - N := by
          rw [Nat.mod_eq_sub_mod (by omega), Nat.mod_eq_of_lt (by omega)]
        rw [hmodval] at hslot
        rw [List.getD_eq_getElem q.queue _ (by rw [hlen]; omega),
          List.getD_eq_getElem xs _ hjlt] at hslot
        have hidx : i - (q.queue.drop (q.endIdx + 1)).length =
            i + (q.endIdx + 1) - N := by
          rw [List.length_drop, hlen]; omega
        simp only [hidx]
        exact hslot

end LQ

/-- C9: for every capacity `N ≥ 1` and every sequence of `k` pushes into a
`LimitedQueue`, `len()` returns `min(k, N)` and `is_full()` returns true
exactly when `k ≥ N`; once more than `N` elements have been pushed each push
overwrites the oldest retained element, so only the last `min(k, N)` pushed
elements are retained: indexing with `i < len` returns them oldest-first
(`xs.drop (k - N)` at position `i`), and `iter()` yields exactly those
elements in the same oldest-to-newest order. -/
theorem limitedQueue_push_index_iter_spec {α : Type} (a0 d : α) (N : Nat)
    (hN : 1 ≤ N) (xs : List α) :
    (((LQ.LimitedQueue.mkDefault a0 N).pushAll xs).len = min xs.length N) ∧
    (((LQ.LimitedQueue.mkDefault a0 N).pushAll xs).isFull = true ↔
      N ≤ xs.length) ∧
    (∀ i < min xs.length N,
      ((LQ.LimitedQueue.mkDefault a0 N).pushAll xs).get i d =
        (xs.drop (xs.length - N)).getD i d) ∧
    ((LQ.LimitedQueue.mkDefault a0 N).pushAll xs).iterList =
      xs.drop (xs.length - N) := by
  have hinv := LQ.inv_pushAll a0 N hN xs
  obtain ⟨hlen, hqlen, hend, hget⟩ := hinv
  refine ⟨hqlen, ?_, ?_, LQ.iterList_of_inv hN ⟨hlen, hqlen, hend, hget⟩⟩
  · simp only [LQ.LimitedQueue.isFull, hqlen, hlen, decide_eq_true_eq]
    omega
  · intro i hi
    rw [LQ.get_of_inv hN ⟨hlen, hqlen, hend, hget⟩ hi d]
    rcases Nat.lt_or_ge xs.length N with hk | hk
    · have h0 : xs.length - N = 0 := by omega
      rw [h0, List.drop_zero]
      congr 1
      omega
    · rw [List.getD_eq_getElem _ d
        (by rw [List.length_drop]; omega : i < (xs.drop (xs.length - N)).length),
        List.getElem_drop,
        List.getD_eq_getElem _ d (by omega : xs.length - min xs.length N + i < xs.length)]
      congr 1
      omega

/-- Witness for C9 at a concrete input: capacity 3, five pushes. -/
theorem limitedQueue_push_index_iter_spec_witness :
    (1 ≤ 3 ∧
      (((LQ.LimitedQueue.mkDefault (0 : Nat) 3).pushAll [1, 2, 3, 4, 5]).len =
        min ([1, 2, 3, 4, 5] : List Nat).length 3 ∧
      ((((LQ.LimitedQueue.mkDefault (0 : Nat) 3).pushAll
          [1, 2, 3, 4, 5]).isFull = true) ↔ 3 ≤ ([1, 2, 3, 4, 5] : List Nat).length) ∧
      (∀ i < min ([1, 2, 3, 4, 5] : List Nat).length 3,
        ((LQ.LimitedQueue.mkDefault (0 : Nat) 3).pushAll [1, 2, 3, 4, 5]).get i 99 =
          (([1, 2, 3, 4, 5] : List Nat).drop (([1, 2, 3, 4, 5] : List Nat).length - 3)).getD i 99) ∧
      ((LQ.LimitedQueue.mkDefault (0 : Nat) 3).pushAll [1, 2, 3, 4, 5]).iterList =
        ([1, 2, 3, 4, 5] : List Nat).drop (([1, 2, 3, 4, 5] : List Nat).length - 3))) :=
  ⟨by decide, limitedQueue_push_index_iter_spec 0 99 3 (by decide) [1, 2, 3, 4, 5]⟩

namespace Gen

/-- The fields of `OsuDifficultyAttributes` consumed by `generate_state` and
`calculate_effective_misses` in `src/osu/performance/mod.rs` (the attribute
struct itself lives outside the provided sources; only the shape used here is
embedded). -/
structure OsuDifficultyAttributes where
  maxCombo : Nat
  nCircles : Nat
  nSliders : Nat
  nSpinners : Nat
  nSliderTicks : Nat
deriving Repr, DecidableEq

/-- Mirrors `OsuDifficultyAttributes::n_objects`: `n_circles + n_sliders + n_spinners`
(as in `src/osu_2019/attributes.rs` lines 30-32). -/
def OsuDifficultyAttributes.nObjects (a : OsuDifficultyAttributes) : Nat :=
  a.nCircles + a.nSliders + a.nSpinners

/-- Mirrors `OsuScoreState` (field list as read back out of
`OsuPerformance::generate_state`, `src/osu/performance/mod.rs` lines 608-616). -/
structure OsuScoreState where
  maxCombo : Nat
  sliderTickHits : Nat
  sliderEndHits : Nat
  n300 : Nat
  n100 : Nat
  n50 : Nat
  misses : Nat
deriving Repr, DecidableEq

/-- Mirrors `HitResultPriority` (`src/any/performance/mod.rs` lines 407-413). -/
inductive HitResultPriority
  | bestCase
  | worstCase
deriving Repr, DecidableEq

/-- The builder fields of `OsuPerformance` that `generate_state` reads
(`src/osu/performance/mod.rs` lines 26-39).  `acc` is already divided by 100
as done by the `accuracy` setter (line 338); `passedObjects` is `None` when
the caller never set one (`Difficulty` defaults to `usize::MAX`, which the
`cmp::min` at lines 356-359 makes equivalent to "all objects"). -/
structure PerfInput where
  acc : Option ℚ
  combo : Option Nat
  sliderTickHits : Option Nat
  sliderEndHits : Option Nat
  n300 : Option Nat
  n100 : Option Nat
  n50 : Option Nat
  misses : Option Nat
  priority : HitResultPriority
  lazer : Option Bool
  passedObjects : Option Nat
deriving Repr, DecidableEq

/-- The standalone `accuracy` function (`src/osu/performance/mod.rs` lines
1023-1043), embedded over `ℚ`. -/
def accuracy (nSliderTicks nSliderEnds n300 n100 n50 misses
    maxSliderTicks maxSliderEnds : Nat) : ℚ :=
  if nSliderTicks + nSliderEnds + n300 + n100 + n50 + misses = 0 then 0
  else
    ((300 * n300 + 100 * n100 + 50 * n50 + 150 * nSliderEnds +
        30 * nSliderTicks : Nat) : ℚ) /
      ((300 * (n300 + n100 + n50 + misses) + 150 * maxSliderEnds +
        30 * maxSliderTicks : Nat) : ℚ)

/-- Rust's saturating `f64 -> u32` cast applied after `floor()`
(`raw.floor() as u32`): negative values clamp to 0, huge values to
`u32::MAX`. -/
def floorToU32 (q : ℚ) : Nat :=
  if q < 0 then 0 else min ⌊q⌋.toNat (2 ^ 32 - 1)

/-- Rust's saturating `f64 -> u32` cast applied after `ceil()`. -/
def ceilToU32 (q : ℚ) : Nat :=
  if q < 0 then 0 else min ⌈q⌉.toNat (2 ^ 32 - 1)

/-- One step of the running "best distance so far" comparison
(`if curr_dist < best_dist { best_dist = curr_dist; ... }`).  The
`f64::MAX` sentinel of the source is modelled by `none` (every actually
computed distance compares below `f64::MAX`). -/
def bestStep {γ : Type} (dist : γ → ℚ) (best : Option (ℚ × γ)) (c : γ) :
    Option (ℚ × γ) :=
  match best with
  | none => some (dist c, c)
  | some (bd, b) => if dist c < bd then some (dist c, c) else some (bd, b)

/-- Running the best-distance search over a candidate list; `none` when the
list is empty (in the source the pre-loop values then survive). -/
def runBest {γ : Type} (dist : γ → ℚ) (cands : List γ) : Option γ :=
  (cands.foldl (bestStep dist) none).map Prod.snd

/-- Mirrors `generate_state`'s `(Some(_), None, None)` arm (`src/osu/performance/mod.rs`
lines 405-440): `n300` is fixed, search over `new100`. -/
def armSNN (targetTotal acc : ℚ) (n300i misses nObjects nRemaining
    nSliderEnds nSliderTicks maxSliderEnds maxSliderTicks : Nat) :
    Nat × Nat × Nat :=
  let n300 := min n300i nRemaining
  let nRem := nRemaining - n300
  let raw := (targetTotal -
    ((5 * nRem + 30 * n300 + 15 * nSliderEnds + 3 * nSliderTicks : Nat) : ℚ)) / 5
  let lo := min nRem (floorToU32 raw)
  let hi := min nRem (ceilToU32 raw)
  (runBest
      (fun new100 => |acc - accuracy nSliderTicks nSliderEnds n300 new100
        (nRem - new100) misses maxSliderTicks maxSliderEnds|)
      (List.range' lo (hi + 1 - lo))).elim
    (n300, 0, 0) (fun new100 => (n300, new100, nRem - new100))

/-- Mirrors `generate_state`'s `(None, Some(_), None)` arm (lines 441-476): `n100` is
fixed, search over `new300`. -/
def armNSN (targetTotal acc : ℚ) (n100i misses nObjects nRemaining
    nSliderEnds nSliderTicks maxSliderEnds maxSliderTicks : Nat) :
    Nat × Nat × Nat :=
  let n100 := min n100i nRemaining
  let nRem := nRemaining - n100
  let raw := (targetTotal -
    ((5 * nRem + 10 * n100 + 15 * nSliderEnds + 3 * nSliderTicks : Nat) : ℚ)) / 25
  let lo := min nRem (floorToU32 raw)
  let hi := min nRem (ceilToU32 raw)
  (runBest
      (fun new300 => |acc - accuracy nSliderTicks nSliderEnds new300 n100
        (nRem - new300) misses maxSliderTicks maxSliderEnds|)
      (List.range' lo (hi + 1 - lo))).elim
    (0, n100, 0) (fun new300 => (new300, n100, nRem - new300))

/-- Mirrors `generate_state`'s `(None, None, Some(_))` arm (lines 477-511): `n50` is
fixed, search over `new300`. -/
def armNNS (targetTotal acc : ℚ) (n50i misses nObjects nRemaining
    nSliderEnds nSliderTicks maxSliderEnds maxSliderTicks : Nat) :
    Nat × Nat × Nat :=
  let n50 := min n50i nRemaining
  let nRem := nRemaining - n50
  let raw := (targetTotal + ((10 * misses + 5 * n50 : Nat) : ℚ) -
    ((10 * nObjects + 15 * nSliderEnds + 3 * nSliderTicks : Nat) : ℚ)) / 20
  let lo := min nRem (floorToU32 raw)
  let hi := min nRem (ceilToU32 raw)
  (runBest
      (fun new300 => |acc - accuracy nSliderTicks nSliderEnds new300
        (nRem - new300) n50 misses maxSliderTicks maxSliderEnds|)
      (List.range' lo (hi + 1 - lo))).elim
    (0, 0, n50) (fun new300 => (new300, nRem - new300, n50))

/-- Mirrors `generate_state`'s `(None, None, None)` arm before the priority shift
(lines 512-555): nested search over `new300` and `new100` with one shared
best distance, modelled as a single fold over the nested candidate list in
iteration order. -/
def armNNN (targetTotal acc : ℚ) (misses nRemaining
    nSliderEnds nSliderTicks maxSliderEnds maxSliderTicks : Nat) :
    Nat × Nat × Nat :=
  let raw300 := (targetTotal -
    ((5 * nRemaining + 15 * nSliderEnds + 3 * nSliderTicks : Nat) : ℚ)) / 25
  let lo300 := min nRemaining (floorToU32 raw300)
  let hi300 := min nRemaining (ceilToU32 raw300)
  let cands := (List.range' lo300 (hi300 + 1 - lo300)).flatMap (fun new300 =>
    let raw100 := (targetTotal -
      ((5 * nRemaining + 25 * new300 + 15 * nSliderEnds +
        3 * nSliderTicks : Nat) : ℚ)) / 5
    let lo100 := min (floorToU32 raw100) (nRemaining - new300)
    let hi100 := min (ceilToU32 raw100) (nRemaining - new300)
    (List.range' lo100 (hi100 + 1 - lo100)).map (fun new100 => (new300, new100)))
  (runBest
      (fun c => |acc - accuracy nSliderTicks nSliderEnds c.1 c.2
        (nRemaining - c.1 - c.2) misses maxSliderTicks maxSliderEnds|)
      cands).elim
    (0, 0, 0) (fun c => (c.1, c.2, nRemaining - c.1 - c.2))

/-- The hit-count part of `generate_state` (`src/osu/performance/mod.rs`
lines 389-592): dispatch over which of `n300`/`n100`/`n50` the caller fixed,
with and without a target accuracy, including the final priority-based
redistribution. -/
def hitCounts (acc? : Option ℚ) (priority : HitResultPriority)
    (n300? n100? n50? : Option Nat)
    (n300i n100i n50i misses nObjects nRemaining
      nSliderEnds nSliderTicks maxSliderEnds maxSliderTicks : Nat) :
    Nat × Nat × Nat :=
  match acc? with
  | some acc =>
    let targetTotal := acc *
      ((30 * nObjects + 15 * maxSliderEnds + 3 * maxSliderTicks : Nat) : ℚ)
    match n300?, n100?, n50? with
    | some _, some _, some _ =>
        let remaining := nObjects - (n300i + n100i + n50i + misses)
        match priority with
        | .bestCase => (n300i + remaining, n100i, n50i)
        | .worstCase => (n300i, n100i, n50i + remaining)
    | some _, some _, none =>
        (n300i, n100i, nObjects - (n300i + n100i + misses))
    | some _, none, some _ =>
        (n300i, nObjects - (n300i + n50i + misses), n50i)
    | none, some _, some _ =>
        (nObjects - (n100i + n50i + misses), n100i, n50i)
    | some _, none, none =>
        armSNN targetTotal acc n300i misses nObjects nRemaining
          nSliderEnds nSliderTicks maxSliderEnds maxSliderTicks
    | none, some _, none =>
        armNSN targetTotal acc n100i misses nObjects nRemaining
          nSliderEnds nSliderTicks maxSliderEnds maxSliderTicks
    | none, none, some _ =>
        armNNS targetTotal acc n50i misses nObjects nRemaining
          nSliderEnds nSliderTicks maxSliderEnds maxSliderTicks
    | none, none, none =>
        let r := armNNN targetTotal acc misses nRemaining
          nSliderEnds nSliderTicks maxSliderEnds maxSliderTicks
        match priority with
        | .bestCase =>
            -- Shift n50 to n100 by sacrificing n300
            let n := min r.1 (r.2.2 / 4)
            (r.1 - n, r.2.1 + 5 * n, r.2.2 - 4 * n)
        | .worstCase =>
            -- Shift n100 to n50 by gaining n300
            let n := r.2.1 / 5
            (r.1 + n, r.2.1 - 5 * n, r.2.2 + 4 * n)
  | none =>
    let remaining := nObjects - (n300i + n100i + n50i + misses)
    match priority with
    | .bestCase =>
        match n300?, n100?, n50? with
        | none, _, _ => (remaining, n100i, n50i)
        | _, none, _ => (n300i, remaining, n50i)
        | _, _, none => (n300i, n100i, remaining)
        | _, _, _ => (n300i + remaining, n100i, n50i)
    | .worstCase =>
        match n50?, n100?, n300? with
        | none, _, _ => (n300i, n100i, remaining)
        | _, none, _ => (n300i, remaining, n50i)
        | _, _, none => (remaining, n100i, n50i)
        | _, _, _ => (n300i, n100i, n50i + remaining)

/-- Mirrors `OsuPerformance::generate_state` (`src/osu/performance/mod.rs` lines
345-617; the identically-shaped relax copy is at
`src/osu_2019/performance/mod.rs` lines 285-557).  The difficulty attributes
are taken as an input: the source computes or reuses them through
`map_or_attrs` before this point. -/
def generateState (attrs : OsuDifficultyAttributes) (inp : PerfInput) :
    OsuScoreState :=
  let maxCombo := attrs.maxCombo
  let nObjects := min (inp.passedObjects.getD attrs.nObjects) attrs.nObjects
  let misses := inp.misses.elim 0 (fun n => min n nObjects)
  let nRemaining := nObjects - misses
  let n300i := inp.n300.elim 0 (fun n => min n nRemaining)
  let n100i := inp.n100.elim 0 (fun n => min n nRemaining)
  let n50i := inp.n50.elim 0 (fun n => min n nRemaining)
  let lazer := inp.lazer.getD true
  let nSliderEnds := if lazer then
    inp.sliderEndHits.elim attrs.nSliders (fun n => min n attrs.nSliders) else 0
  let nSliderTicks := if lazer then
    inp.sliderTickHits.elim attrs.nSliderTicks
      (fun n => min n attrs.nSliderTicks) else 0
  let maxSliderEnds := if lazer then attrs.nSliders else 0
  let maxSliderTicks := if lazer then attrs.nSliderTicks else 0
  let r := hitCounts inp.acc inp.priority inp.n300 inp.n100 inp.n50
    n300i n100i n50i misses nObjects nRemaining
    nSliderEnds nSliderTicks maxSliderEnds maxSliderTicks
  let maxPossibleCombo := maxCombo - misses
  let comboOut := inp.combo.elim maxPossibleCombo
    (fun c => min c maxPossibleCombo)
  { maxCombo := comboOut
    sliderTickHits := nSliderTicks
    sliderEndHits := nSliderEnds
    n300 := r.1
    n100 := r.2.1
    n50 := r.2.2
    misses := misses }

lemma floorToU32_le_ceilToU32 (q : ℚ) : floorToU32 q ≤ ceilToU32 q := by
  unfold floorToU32 ceilToU32
  split
  · exact Nat.zero_le _
  · exact min_le_min (Int.toNat_le_toNat (Int.floor_le_ceil q)) le_rfl

lemma bestStep_foldl_some {γ : Type} (dist : γ → ℚ) :
    ∀ (cands : List γ) (p : ℚ × γ),
      ∃ p', cands.foldl (bestStep dist) (some p) = some p' ∧
        (p'.2 = p.2 ∨ p'.2 ∈ cands) := by
  intro cands
  induction cands with
  | nil => exact fun p => ⟨p, rfl, Or.inl rfl⟩
  | cons c cs ih =>
      intro p
      obtain ⟨bd, b⟩ := p
      by_cases h : dist c < bd
      · obtain ⟨p', hp', hmem⟩ := ih (dist c, c)
        refine ⟨p', ?_, ?_⟩
        · simpa [bestStep, h] using hp'
        · rcases hmem with h1 | h1
          · exact Or.inr (by rw [h1]; exact List.mem_cons_self c cs)
          · exact Or.inr (List.mem_cons_of_mem _ h1)
      · obtain ⟨p', hp', hmem⟩ := ih (bd, b)
        refine ⟨p', ?_, ?_⟩
        · simpa [bestStep, h] using hp'
        · rcases hmem with h1 | h1
          · exact Or.inl h1
          · exact Or.inr (List.mem_cons_of_mem _ h1)

lemma runBest_mem_of_eq {γ : Type} {dist : γ → ℚ} {cands : List γ} {w : γ}
    (h : runBest dist cands = some w) : w ∈ cands := by
  match cands with
  | [] => simp [runBest] at h
  | c :: cs =>
      obtain ⟨p', hp', hmem⟩ := bestStep_foldl_some dist cs (dist c, c)
      unfold runBest at h
      rw [List.foldl_cons] at h
      have hstep : bestStep dist none c = some (dist c, c) := rfl
      rw [hstep, hp'] at h
      simp only [Option.map_some', Option.some_inj] at h
      rw [← h]
      rcases hmem with h1 | h1
      · rw [h1]; exact List.mem_cons_self c cs
      · exact List.mem_cons_of_mem _ h1

lemma runBest_ne_none {γ : Type} {dist : γ → ℚ} {cands : List γ}
    (hne : cands ≠ []) : runBest dist cands ≠ none := by
  match cands with
  | [] => exact absurd rfl hne
  | c :: cs =>
      obtain ⟨p', hp', _⟩ := bestStep_foldl_some dist cs (dist c, c)
      unfold runBest
      rw [List.foldl_cons]
      have hstep : bestStep dist none c = some (dist c, c) := rfl
      rw [hstep, hp']
      simp

/-- The searches of `generate_state` always pick a candidate within the
iterated inclusive range: the result of an `Option.elim` over
`runBest` on `lo..=hi`. -/
lemma elim_runBest_range {β : Type} (dist : Nat → ℚ) (dflt : β) (f : Nat → β)
    {lo hi : Nat} (hlh : lo ≤ hi) {P : β → Prop}
    (hP : ∀ w, lo ≤ w → w ≤ hi → P (f w)) :
    P ((runBest dist (List.range' lo (hi + 1 - lo))).elim dflt f) := by
  cases heq : runBest dist (List.range' lo (hi + 1 - lo)) with
  | none =>
      exact absurd heq (runBest_ne_none
        (by rw [Ne, List.range'_eq_nil]; omega))
  | some w =>
      have hmem := runBest_mem_of_eq heq
      rw [List.mem_range'_1] at hmem
      exact hP w (by omega) (by omega)

/-- Counterpart of `elim_runBest_range` for the nested `(None, None, None)`
search over pairs. -/
lemma elim_runBest_pairs {β : Type} (dist : Nat × Nat → ℚ) (dflt : β)
    (f : Nat × Nat → β) {lo hi : Nat} {g h : Nat → Nat} (hlh : lo ≤ hi)
    (hgh : ∀ a, g a ≤ h a) {P : β → Prop}
    (hP : ∀ w : Nat × Nat, lo ≤ w.1 → w.1 ≤ hi → g w.1 ≤ w.2 → w.2 ≤ h w.1 →
      P (f w)) :
    P ((runBest dist ((List.range' lo (hi + 1 - lo)).flatMap
        (fun a => (List.range' (g a) (h a + 1 - g a)).map
          (fun b => (a, b))))).elim dflt f) := by
  cases heq : runBest dist ((List.range' lo (hi + 1 - lo)).flatMap
      (fun a => (List.range' (g a) (h a + 1 - g a)).map (fun b => (a, b)))) with
  | none =>
      refine absurd heq (runBest_ne_none (List.ne_nil_of_mem (a := (lo, g lo)) ?_))
      rw [List.mem_flatMap]
      refine ⟨lo, by rw [List.mem_range'_1]; omega, ?_⟩
      rw [List.mem_map]
      exact ⟨g lo, by rw [List.mem_range'_1]; have := hgh lo; omega, rfl⟩
  | some w =>
      have hmem := runBest_mem_of_eq heq
      rw [List.mem_flatMap] at hmem
      obtain ⟨a, ha, hw⟩ := hmem
      rw [List.mem_range'_1] at ha
      rw [List.mem_map] at hw
      obtain ⟨b, hb, hab⟩ := hw
      rw [List.mem_range'_1] at hb
      rw [← hab]
      exact hP (a, b) (by omega) (by omega) (show g a ≤ b by omega)
        (show b ≤ h a by omega)

/-- Sum of the three generated hit buckets. -/
def sumTriple (t : Nat × Nat × Nat) : Nat := t.1 + t.2.1 + t.2.2

/-- The `(None, None, None)` search always lands on a candidate pair summing
(with the derived `n50`) to exactly `n_remaining`. -/
lemma armNNN_sum (targetTotal acc : ℚ)
    (misses nRemaining ends ticks mEnds mTicks : Nat) :
    sumTriple (armNNN targetTotal acc misses nRemaining ends ticks mEnds
      mTicks) = nRemaining := by
  simp only [armNNN, sumTriple]
  refine elim_runBest_pairs _ _ _
    (P := fun r : Nat × Nat × Nat => r.1 + r.2.1 + r.2.2 = nRemaining) ?_ ?_ ?_
  · exact min_le_min le_rfl (floorToU32_le_ceilToU32 _)
  · exact fun a => min_le_min (floorToU32_le_ceilToU32 _) le_rfl
  · intro w _ hw1 _ hw2
    simp only
    omega

/-- The generated hit counts stay within the passed-object window provided
the caller-supplied (clamped) counts do. -/
lemma hitCounts_sum_le (acc? : Option ℚ) (priority : HitResultPriority)
    (n300? n100? n50? : Option Nat)
    (n300i n100i n50i misses nObjects nRemaining
      ends ticks mEnds mTicks : Nat)
    (hrem : nRemaining = nObjects - misses) (hm : misses ≤ nObjects)
    (H : n300i + n100i + n50i + misses ≤ nObjects) :
    sumTriple (hitCounts acc? priority n300? n100? n50? n300i n100i n50i
      misses nObjects nRemaining ends ticks mEnds mTicks) + misses ≤
      nObjects := by
  cases acc? with
  | none =>
      cases priority <;>
        cases n300? <;> cases n100? <;> cases n50? <;>
          (simp only [hitCounts, sumTriple]; omega)
  | some acc =>
      cases n300? <;> cases n100? <;> cases n50?
      · -- (None, None, None): nested search, then priority shift
        have harm := armNNN_sum
          (acc * ((30 * nObjects + 15 * mEnds + 3 * mTicks : Nat) : ℚ)) acc
          misses nRemaining ends ticks mEnds mTicks
        rcases hr : armNNN
            (acc * ((30 * nObjects + 15 * mEnds + 3 * mTicks : Nat) : ℚ))
            acc misses nRemaining ends ticks mEnds mTicks with ⟨r1, r2, r3⟩
        rw [hr] at harm
        simp only [sumTriple] at harm
        cases priority <;>
          (simp only [hitCounts, hr, sumTriple]; omega)
      · -- (None, None, Some): `n50` fixed, search for `new300`
        simp only [hitCounts, armNNS, sumTriple]
        refine elim_runBest_range _ _ _
          (P := fun r : Nat × Nat × Nat => r.1 + r.2.1 + r.2.2 + misses ≤ nObjects)
          (min_le_min le_rfl (floorToU32_le_ceilToU32 _)) ?_
        intro w _ hhi
        simp only
        omega
      · -- (None, Some, None): `n100` fixed, search for `new300`
        simp only [hitCounts, armNSN, sumTriple]
        refine elim_runBest_range _ _ _
          (P := fun r : Nat × Nat × Nat => r.1 + r.2.1 + r.2.2 + misses ≤ nObjects)
          (min_le_min le_rfl (floorToU32_le_ceilToU32 _)) ?_
        intro w _ hhi
        simp only
        omega
      · -- (None, Some, Some)
        simp only [hitCounts, sumTriple]
        omega
      · -- (Some, None, None): `n300` fixed, search for `new100`
        simp only [hitCounts, armSNN, sumTriple]
        refine elim_runBest_range _ _ _
          (P := fun r : Nat × Nat × Nat => r.1 + r.2.1 + r.2.2 + misses ≤ nObjects)
          (min_le_min le_rfl (floorToU32_le_ceilToU32 _)) ?_
        intro w _ hhi
        simp only
        omega
      · -- (Some, None, Some)
        simp only [hitCounts, sumTriple]
        omega
      · -- (Some, Some, None)
        simp only [hitCounts, sumTriple]
        omega
      · -- (Some, Some, Some)
        cases priority <;> (simp only [hitCounts, sumTriple]; omega)

/-- The passed-object window: `cmp::min(passed_objects, attrs.n_objects())`
(`src/osu/performance/mod.rs` lines 356-359). -/
def windowObjects (attrs : OsuDifficultyAttributes) (inp : PerfInput) : Nat :=
  min (inp.passedObjects.getD attrs.nObjects) attrs.nObjects

/-- The miss count after clamping to the window (line 362). -/
def clampedMisses (attrs : OsuDifficultyAttributes) (inp : PerfInput) : Nat :=
  inp.misses.elim 0 (fun n => min n (windowObjects attrs inp))

/-- Sum of the caller-supplied hit counts after the individual clamping of
lines 365-367, together with the clamped misses. -/
def suppliedClamped (attrs : OsuDifficultyAttributes) (inp : PerfInput) : Nat :=
  inp.n300.elim 0 (fun n => min n (windowObjects attrs inp - clampedMisses attrs inp)) +
  inp.n100.elim 0 (fun n => min n (windowObjects attrs inp - clampedMisses attrs inp)) +
  inp.n50.elim 0 (fun n => min n (windowObjects attrs inp - clampedMisses attrs inp)) +
  clampedMisses attrs inp

/-- The weighted hit score (the numerator of `accuracy`, lines 1037). -/
def score (st : OsuScoreState) : Nat :=
  300 * st.n300 + 100 * st.n100 + 50 * st.n50 + 150 * st.sliderEndHits +
    30 * st.sliderTickHits

/-- Only the weighted triple part of `score`. -/
def wsum (t : Nat × Nat × Nat) : Nat := 300 * t.1 + 100 * t.2.1 + 50 * t.2.2

/-- Mirrors `BestCase` never produces a smaller weighted hit score than `WorstCase`:
the search branches ignore the priority entirely, and the two redistribution
shifts preserve the weighted score exactly. -/
lemma hitCounts_wsum_ge (acc? : Option ℚ) (n300? n100? n50? : Option Nat)
    (n300i n100i n50i misses nObjects nRemaining
      ends ticks mEnds mTicks : Nat)
    (h3 : n300? = none → n300i = 0) (h1 : n100? = none → n100i = 0)
    (h5 : n50? = none → n50i = 0) :
    wsum (hitCounts acc? .worstCase n300? n100? n50? n300i n100i n50i misses
      nObjects nRemaining ends ticks mEnds mTicks) ≤
    wsum (hitCounts acc? .bestCase n300? n100? n50? n300i n100i n50i misses
      nObjects nRemaining ends ticks mEnds mTicks) := by
  cases acc? with
  | none =>
      cases n300? <;> cases n100? <;> cases n50? <;>
        simp only [hitCounts, wsum]
      all_goals try have e3 := h3 rfl
      all_goals try have e1 := h1 rfl
      all_goals try have e5 := h5 rfl
      all_goals omega
  | some acc =>
      cases n300? <;> cases n100? <;> cases n50?
      · -- (None, None, None): identical search, score-preserving shifts
        rcases hr : armNNN
            (acc * ((30 * nObjects + 15 * mEnds + 3 * mTicks : Nat) : ℚ))
            acc misses nRemaining ends ticks mEnds mTicks with ⟨r1, r2, r3⟩
        simp only [hitCounts, hr, wsum]
        omega
      · simp only [hitCounts]; exact le_rfl
      · simp only [hitCounts]; exact le_rfl
      · simp only [hitCounts, wsum]; omega
      · simp only [hitCounts]; exact le_rfl
      · simp only [hitCounts, wsum]; omega
      · simp only [hitCounts, wsum]; omega
      · simp only [hitCounts, wsum]; omega

lemma score_priority_aux (attrs : OsuDifficultyAttributes)
    (acc? : Option ℚ) (combo? st? se? n300? n100? n50? misses? : Option Nat)
    (lazer? : Option Bool) (passed? : Option Nat) :
    score (generateState attrs
      ⟨acc?, combo?, st?, se?, n300?, n100?, n50?, misses?, .worstCase,
        lazer?, passed?⟩) ≤
    score (generateState attrs
      ⟨acc?, combo?, st?, se?, n300?, n100?, n50?, misses?, .bestCase,
        lazer?, passed?⟩) := by
  simp only [generateState, score]
  refine Nat.add_le_add_right (Nat.add_le_add_right ?_ _) _
  exact hitCounts_wsum_ge _ _ _ _ _ _ _ _ _ _ _ _ _ _
    (fun h => by subst h; rfl) (fun h => by subst h; rfl)
    (fun h => by subst h; rfl)

/-- A 10-object sliderless map used in concrete checks. -/
def cexAttrs : OsuDifficultyAttributes :=
  { maxCombo := 10, nCircles := 10, nSliders := 0, nSpinners := 0
    nSliderTicks := 0 }

/-- A builder configuration over-supplying all three hit buckets: each is
individually clamped to the window (10), but their sum is not. -/
def cexInp : PerfInput :=
  { acc := none, combo := none, sliderTickHits := none, sliderEndHits := none
    n300 := some 10, n100 := some 10, n50 := some 10, misses := none
    priority := .bestCase, lazer := some false, passedObjects := none }

/-- A consistent builder configuration (supplied counts fit the window). -/
def okInp : PerfInput :=
  { acc := none, combo := some 20, sliderTickHits := none
    sliderEndHits := none, n300 := some 3, n100 := some 4, n50 := none
    misses := some 1, priority := .bestCase, lazer := some false
    passedObjects := none }

end Gen

/-- C6, counterexample: with `n300 = n100 = n50 = Some(10)` on a 10-object
map (no accuracy target), `generate_state` keeps all three buckets at 10, so
the generated state's accounted-for hits sum to 30 > 10: the claimed window
bound fails for over-supplied inputs. -/
theorem generate_state_window_bound_counterexample :
    ¬ ((Gen.generateState Gen.cexAttrs Gen.cexInp).n300 +
        (Gen.generateState Gen.cexAttrs Gen.cexInp).n100 +
        (Gen.generateState Gen.cexAttrs Gen.cexInp).n50 +
        (Gen.generateState Gen.cexAttrs Gen.cexInp).misses ≤
        Gen.windowObjects Gen.cexAttrs Gen.cexInp) := by
  decide

/-- C6 (amended): every count of the generated `ScoreState` is a natural
number (non-negative by construction), and the sum of accounted-for hits
`n300 + n100 + n50 + misses` does not exceed the passed-object window
provided the caller-supplied hit counts (after their individual clamping to
the window) together with the clamped misses do not already exceed it — in
particular whenever the caller leaves the buckets to be generated. -/
theorem generate_state_window_bound (attrs : Gen.OsuDifficultyAttributes)
    (inp : Gen.PerfInput)
    (H : Gen.suppliedClamped attrs inp ≤ Gen.windowObjects attrs inp) :
    (Gen.generateState attrs inp).n300 + (Gen.generateState attrs inp).n100 +
      (Gen.generateState attrs inp).n50 +
      (Gen.generateState attrs inp).misses ≤
      Gen.windowObjects attrs inp := by
  have hm : Gen.clampedMisses attrs inp ≤ Gen.windowObjects attrs inp := by
    unfold Gen.clampedMisses
    cases inp.misses with
    | none => exact Nat.zero_le _
    | some m => exact min_le_right _ _
  exact Gen.hitCounts_sum_le _ _ _ _ _ _ _ _ _ _ _ _ _ _ _ rfl hm H

/-- Witness for C6 at a concrete consistent input. -/
theorem generate_state_window_bound_witness :
    Gen.suppliedClamped Gen.cexAttrs Gen.okInp ≤
      Gen.windowObjects Gen.cexAttrs Gen.okInp ∧
    ((Gen.generateState Gen.cexAttrs Gen.okInp).n300 +
      (Gen.generateState Gen.cexAttrs Gen.okInp).n100 +
      (Gen.generateState Gen.cexAttrs Gen.okInp).n50 +
      (Gen.generateState Gen.cexAttrs Gen.okInp).misses ≤
      Gen.windowObjects Gen.cexAttrs Gen.okInp) :=
  ⟨by decide, generate_state_window_bound Gen.cexAttrs Gen.okInp (by decide)⟩

/-- C7: for every difficulty-attributes record and every builder
configuration (target accuracy and any fixed subset of hit-count buckets),
the hitresult synthesis run with priority `BestCase` never produces a state
whose accuracy-equivalent weighted score (the weighted numerator
`300·n300 + 100·n100 + 50·n50 + 150·slider_ends + 30·slider_ticks` of the
`accuracy` function) is strictly lower than the state produced with priority
`WorstCase` on the same inputs. -/
theorem hitresult_priority_best_ge_worst (attrs : Gen.OsuDifficultyAttributes)
    (inp : Gen.PerfInput) :
    Gen.score (Gen.generateState attrs
      { inp with priority := Gen.HitResultPriority.worstCase }) ≤
    Gen.score (Gen.generateState attrs
      { inp with priority := Gen.HitResultPriority.bestCase }) := by
  obtain ⟨a, c, st, se, n3, n1, n5, m, pr, lz, po⟩ := inp
  exact Gen.score_priority_aux attrs a c st se n3 n1 n5 m lz po

/-- C10: the generated state's `max_combo` never exceeds the map's max combo
minus the (clamped) miss count; a caller-supplied combo above that bound is
silently clamped down to it, and with no caller-supplied combo the bound
itself is used. -/
theorem generate_state_combo_clamp (attrs : Gen.OsuDifficultyAttributes)
    (inp : Gen.PerfInput) :
    ((Gen.generateState attrs inp).maxCombo ≤
      attrs.maxCombo - (Gen.generateState attrs inp).misses) ∧
    (∀ c, inp.combo = some c →
      (Gen.generateState attrs inp).maxCombo =
        min c (attrs.maxCombo - (Gen.generateState attrs inp).misses)) ∧
    (inp.combo = none →
      (Gen.generateState attrs inp).maxCombo =
        attrs.maxCombo - (Gen.generateState attrs inp).misses) := by
  refine ⟨?_, ?_, ?_⟩
  · cases hc : inp.combo with
    | none => simp only [Gen.generateState, hc, Option.elim]; exact le_rfl
    | some c => simp only [Gen.generateState, hc, Option.elim]
                exact min_le_right _ _
  · intro c hc
    simp only [Gen.generateState, hc, Option.elim]
  · intro hc
    simp only [Gen.generateState, hc, Option.elim]

/-- Witness for C10 at a concrete input (inner implications instantiated). -/
theorem generate_state_combo_clamp_witness :
    ((Gen.generateState Gen.cexAttrs Gen.okInp).maxCombo ≤
      Gen.cexAttrs.maxCombo - (Gen.generateState Gen.cexAttrs Gen.okInp).misses) ∧
    (∀ c, Gen.okInp.combo = some c →
      (Gen.generateState Gen.cexAttrs Gen.okInp).maxCombo =
        min c (Gen.cexAttrs.maxCombo -
          (Gen.generateState Gen.cexAttrs Gen.okInp).misses)) ∧
    (Gen.okInp.combo = none →
      (Gen.generateState Gen.cexAttrs Gen.okInp).maxCombo =
        Gen.cexAttrs.maxCombo -
          (Gen.generateState Gen.cexAttrs Gen.okInp).misses) :=
  generate_state_combo_clamp Gen.cexAttrs Gen.okInp

namespace Gen

/-- Mirrors `calculate_effective_misses` (`src/osu/performance/mod.rs` lines
1004-1021; the relax copy at `src/osu_2019/performance/mod.rs` lines 884-901
is identical): guess misses + slider breaks from the combo shortfall, clamp
into `[misses, n100 + n50 + misses]`. -/
def calculateEffectiveMisses (attrs : OsuDifficultyAttributes)
    (state : OsuScoreState) : ℚ :=
  let comboBasedMissCount : ℚ :=
    if 0 < attrs.nSliders then
      let fullComboThreshold : ℚ :=
        (attrs.maxCombo : ℚ) - 0.1 * (attrs.nSliders : ℚ)
      if (state.maxCombo : ℚ) < fullComboThreshold then
        fullComboThreshold / max (state.maxCombo : ℚ) 1
      else 0
    else 0
  let clamped :=
    min comboBasedMissCount ((state.n100 + state.n50 + state.misses : Nat) : ℚ)
  max clamped (state.misses : ℚ)

/-- The effective-miss formula exactly as the claim words it: the
combo-based component is `threshold / achieved_combo`, with no guard
against a zero achieved combo (the source divides by
`max(achieved_combo, 1)` instead). -/
def claimEffectiveMisses (attrs : OsuDifficultyAttributes)
    (state : OsuScoreState) : ℚ :=
  let threshold : ℚ := (attrs.maxCombo : ℚ) - 0.1 * (attrs.nSliders : ℚ)
  let comboBased : ℚ :=
    if 0 < attrs.nSliders ∧ (state.maxCombo : ℚ) < threshold then
      threshold / (state.maxCombo : ℚ)
    else 0
  max (min comboBased ((state.n100 + state.n50 + state.misses : Nat) : ℚ))
    (state.misses : ℚ)

/-- A map with sliders and a zero-combo score used to separate the claimed
formula from the code. -/
def emAttrs : OsuDifficultyAttributes :=
  { maxCombo := 100, nCircles := 80, nSliders := 10, nSpinners := 0
    nSliderTicks := 0 }

/-- Score state with `max_combo = 0` and plenty of 100s/50s. -/
def emState : OsuScoreState :=
  { maxCombo := 0, sliderTickHits := 0, sliderEndHits := 0, n300 := 0
    n100 := 500, n50 := 500, misses := 0 }

end Gen

/-- C3, counterexample: at a zero achieved combo the code divides the
threshold by `max(combo, 1) = 1` and yields 99, while the claim's formula
`threshold / achieved_combo` does not (under the total-division reading it
yields 0): the claimed combo-based component misses the `max(combo, 1)`
guard. -/
theorem effective_miss_formula_counterexample :
    Gen.claimEffectiveMisses Gen.emAttrs Gen.emState ≠
      Gen.calculateEffectiveMisses Gen.emAttrs Gen.emState := by
  norm_num [Gen.claimEffectiveMisses, Gen.calculateEffectiveMisses,
    Gen.emAttrs, Gen.emState]

/-- C3 (amended): for every difficulty-attributes record and score state,
`reported_misses ≤ effective_miss_count ≤ n100 + n50 + misses`, where the
combo-based component is `threshold / max(achieved_combo, 1)` when the map
has at least one slider and the achieved combo is below
`max_combo - 0.1 * n_sliders`, and 0 otherwise. -/
theorem effective_miss_clamp (attrs : Gen.OsuDifficultyAttributes)
    (state : Gen.OsuScoreState) :
    ((state.misses : ℚ) ≤ Gen.calculateEffectiveMisses attrs state) ∧
    (Gen.calculateEffectiveMisses attrs state ≤
      ((state.n100 + state.n50 + state.misses : Nat) : ℚ)) ∧
    (Gen.calculateEffectiveMisses attrs state =
      max (min
        (if 0 < attrs.nSliders ∧ (state.maxCombo : ℚ) <
            (attrs.maxCombo : ℚ) - 0.1 * (attrs.nSliders : ℚ) then
          ((attrs.maxCombo : ℚ) - 0.1 * (attrs.nSliders : ℚ)) /
            max (state.maxCombo : ℚ) 1
        else 0)
        ((state.n100 + state.n50 + state.misses : Nat) : ℚ))
        (state.misses : ℚ)) := by
  unfold Gen.calculateEffectiveMisses
  refine ⟨le_max_right _ _, ?_, ?_⟩
  · refine max_le (min_le_right _ _) ?_
    exact_mod_cast Nat.le_add_left state.misses (state.n100 + state.n50)
  · by_cases h1 : 0 < attrs.nSliders <;>
      by_cases h2 : (state.maxCombo : ℚ) <
        (attrs.maxCombo : ℚ) - 0.1 * (attrs.nSliders : ℚ) <;>
      simp [h1, h2]

namespace Conv

/-- Mirrors `GameMode` (from `rosu_map`, consumed by `try_mode`). -/
inductive GameMode
  | osu
  | taiko
  | catch
  | mania
deriving Repr, DecidableEq

/-- Mirrors `MapOrAttrs<'map, M>` (`util/map_or_attrs.rs`, not under the provided
sources; shape as used by `generate_state` and `try_mode`): either a borrowed
beatmap or already-substituted difficulty attributes. -/
inductive MapOrAttrs (M A : Type)
  | map (m : M)
  | attrs (a : A)

/-- Mirrors `OsuPerformance` reduced to what mode conversion inspects: the
`map_or_attrs` field plus an opaque payload `cfg` standing for all the other
builder fields (`src/osu/performance/mod.rs` lines 26-39). -/
structure OsuPerf (M A C : Type) where
  mapOrAttrs : MapOrAttrs M A
  cfg : C

/-- Mirrors `Performance` (`src/any/performance/mod.rs` lines 18-24); the four
non-osu calculators are opaque type parameters. -/
inductive Performance (M A C T Ca Ma R : Type)
  | osu (o : OsuPerf M A C)
  | taiko (t : T)
  | catch (c : Ca)
  | mania (m : Ma)
  | osuRelax (r : R)

variable {M A C T Ca Ma R : Type}

/-- Modelled from the spec: the `impl TryFrom<OsuPerformance> for
TaikoPerformance` (and catch/mania) conversions are not under `src/`; per
the spec, "a performance calculator built for one mode can attempt
conversion to another only by discarding any already-substituted
DifficultyAttributes (conversion requires the original beatmap); attempting
conversion after attributes were substituted must fail non-fatally (return
the original unmodified, tagged as not converted)".  `convert` is the
arbitrary map-based conversion. -/
def tryFromOsu (convert : M → C → T) (p : OsuPerf M A C) :
    Except (OsuPerf M A C) T :=
  match p.mapOrAttrs with
  | .map m => .ok (convert m p.cfg)
  | .attrs _ => .error p

/-- Mirrors `OsuPerformance::try_mode` (`src/osu/performance/mod.rs` lines 93-100). -/
def OsuPerf.tryMode (convT : M → C → T) (convC : M → C → Ca)
    (convM : M → C → Ma) (p : OsuPerf M A C) (mode : GameMode) :
    Except (OsuPerf M A C) (Performance M A C T Ca Ma R) :=
  match mode with
  | .osu => .ok (.osu p)
  | .taiko => (tryFromOsu convT p).map .taiko
  | .catch => (tryFromOsu convC p).map .catch
  | .mania => (tryFromOsu convM p).map .mania

/-- Mirrors `OsuPerformance::mode_or_ignore` (`src/osu/performance/mod.rs` lines
111-124): `map_or_else(Performance::Osu, Performance::<mode>)`. -/
def OsuPerf.modeOrIgnore (convT : M → C → T) (convC : M → C → Ca)
    (convM : M → C → Ma) (p : OsuPerf M A C) (mode : GameMode) :
    Performance M A C T Ca Ma R :=
  match mode with
  | .osu => .osu p
  | .taiko =>
      match tryFromOsu convT p with
      | .ok t => .taiko t
      | .error e => .osu e
  | .catch =>
      match tryFromOsu convC p with
      | .ok c => .catch c
      | .error e => .osu e
  | .mania =>
      match tryFromOsu convM p with
      | .ok m => .mania m
      | .error e => .osu e

/-- Mirrors `Performance::try_mode` (`src/any/performance/mod.rs` lines 76-84):
an osu calculator delegates; same-mode non-osu calculators pass through
unchanged; every other combination (including `OsuRelax` with any mode)
returns `Err` with the calculator untouched. -/
def Performance.tryMode (convT : M → C → T) (convC : M → C → Ca)
    (convM : M → C → Ma) (perf : Performance M A C T Ca Ma R)
    (mode : GameMode) :
    Except (Performance M A C T Ca Ma R) (Performance M A C T Ca Ma R) :=
  match perf, mode with
  | .osu o, _ => (o.tryMode convT convC convM mode).mapError .osu
  | .taiko t, .taiko => .ok (.taiko t)
  | .catch c, .catch => .ok (.catch c)
  | .mania m, .mania => .ok (.mania m)
  | this, _ => .error this

end Conv

/-- C8: a performance calculator on which difficulty attributes were already
substituted for the beatmap cannot be converted to another mode: for every
target mode other than its own, `try_mode` returns `Err` carrying the
original calculator unmodified and `mode_or_ignore` returns the original
unchanged (wrapped in its own variant); same-mode requests pass the
calculator through untouched.  The statement covers both the osu-level
methods and the mode-generic `Performance::try_mode`. -/
theorem try_mode_attrs_nonfatal {M A C T Ca Ma R : Type}
    (convT : M → C → T) (convC : M → C → Ca) (convM : M → C → Ma)
    (p : Conv.OsuPerf M A C) (a : A) (h : p.mapOrAttrs = Conv.MapOrAttrs.attrs a) :
    (∀ mode, mode ≠ Conv.GameMode.osu →
      Conv.OsuPerf.tryMode (R := R) convT convC convM p mode =
        Except.error p) ∧
    (Conv.OsuPerf.tryMode (R := R) convT convC convM p Conv.GameMode.osu =
      Except.ok (Conv.Performance.osu p)) ∧
    (∀ mode, mode ≠ Conv.GameMode.osu →
      Conv.OsuPerf.modeOrIgnore (R := R) convT convC convM p mode =
        Conv.Performance.osu p) ∧
    (∀ mode, mode ≠ Conv.GameMode.osu →
      Conv.Performance.tryMode (R := R) convT convC convM
        (Conv.Performance.osu p) mode =
        Except.error (Conv.Performance.osu p)) := by
  have htf : ∀ {X : Type} (cv : M → C → X),
      Conv.tryFromOsu cv p = Except.error p := by
    intro X cv
    unfold Conv.tryFromOsu
    rw [h]
  refine ⟨?_, rfl, ?_, ?_⟩
  · intro mode hm
    cases mode
    · exact absurd rfl hm
    · simp [Conv.OsuPerf.tryMode, htf, Except.map]
    · simp [Conv.OsuPerf.tryMode, htf, Except.map]
    · simp [Conv.OsuPerf.tryMode, htf, Except.map]
  · intro mode hm
    cases mode
    · exact absurd rfl hm
    · simp [Conv.OsuPerf.modeOrIgnore, htf]
    · simp [Conv.OsuPerf.modeOrIgnore, htf]
    · simp [Conv.OsuPerf.modeOrIgnore, htf]
  · intro mode hm
    cases mode
    · exact absurd rfl hm
    · simp [Conv.Performance.tryMode, Conv.OsuPerf.tryMode, htf,
        Except.map, Except.mapError]
    · simp [Conv.Performance.tryMode, Conv.OsuPerf.tryMode, htf,
        Except.map, Except.mapError]
    · simp [Conv.Performance.tryMode, Conv.OsuPerf.tryMode, htf,
        Except.map, Except.mapError]

/-- Witness for C8 at concrete types and a concrete attrs-backed calculator. -/
theorem try_mode_attrs_nonfatal_witness :
    ((⟨Conv.MapOrAttrs.attrs 7, 0⟩ : Conv.OsuPerf Nat Nat Nat).mapOrAttrs =
      Conv.MapOrAttrs.attrs 7) ∧
    (∀ mode, mode ≠ Conv.GameMode.osu →
      Conv.OsuPerf.tryMode (R := Nat) (fun _ _ => (1 : Nat))
        (fun _ _ => (2 : Nat)) (fun _ _ => (3 : Nat))
        (⟨Conv.MapOrAttrs.attrs 7, 0⟩ : Conv.OsuPerf Nat Nat Nat) mode =
        Except.error ⟨Conv.MapOrAttrs.attrs 7, 0⟩) := by
  have hmain := try_mode_attrs_nonfatal (R := Nat)
    (fun _ _ => (1 : Nat)) (fun _ _ => (2 : Nat)) (fun _ _ => (3 : Nat))
    (⟨Conv.MapOrAttrs.attrs 7, 0⟩ : Conv.OsuPerf Nat Nat Nat) 7 rfl
  exact ⟨rfl, hmain.1⟩

namespace Skills

/-- Mirrors `strain_decay(ms, base)` from `any/difficulty/skills` (not under the
provided sources; the spec's decay model names it explicitly):
`base.powf(ms / 1000.0)`. -/
noncomputable def strainDecay (ms base : ℝ) : ℝ := base ^ (ms / 1000)

/-- Mirrors `OsuDifficultyObject` of `osu_2019/difficulty/object.rs` (file not under
the provided sources), reduced to the fields the aim/speed skills read. -/
structure OsuDifficultyObject where
  idx : Nat
  startTime : ℝ
  deltaTime : ℝ
  strainTime : ℝ
  lazyJumpDist : ℝ
  travelDist : ℝ
  angle : Option ℝ
  isSpinner : Bool

/-- Mirrors `apply_diminishing_exp` (`osu_2019/difficulty/skills/aim.rs` lines
141-144): `val.powf(0.99)`. -/
noncomputable def applyDiminishingExp (val : ℝ) : ℝ := val ^ (0.99 : ℝ)

/-- Mirrors `AimEvaluator::evaluate_diff_of` (`aim.rs` lines 106-138); the
`curr.previous(0, diff_objects)` lookback is passed in as `prev`. -/
noncomputable def aimEvaluateDiffOf (curr : OsuDifficultyObject)
    (prev : Option OsuDifficultyObject) : ℝ :=
  if curr.isSpinner then 0
  else
    let result : ℝ :=
      match prev with
      | some p =>
          match curr.angle with
          | some angle =>
              if angle > Real.pi / 3 then
                let scale : ℝ := 90
                let angleBonus := Real.sqrt
                  ((Real.sin (angle - Real.pi / 3)) ^ 2 *
                    max (p.lazyJumpDist - scale) 0 *
                    max (curr.lazyJumpDist - scale) 0)
                1.5 * applyDiminishingExp (max angleBonus 0) /
                  max 107 p.strainTime
              else 0
          | none => 0
      | none => 0
    let jumpDistExp := applyDiminishingExp curr.lazyJumpDist
    let travelDistExp := applyDiminishingExp curr.travelDist
    let distExp := jumpDistExp + travelDistExp +
      Real.sqrt (travelDistExp * jumpDistExp)
    max (result + distExp / max curr.strainTime 107)
      (distExp / curr.strainTime)

/-- Mirrors `SpeedEvaluator::evaluate_diff_of` (`speed.rs` lines 126-164). -/
noncomputable def speedEvaluateDiffOf (curr : OsuDifficultyObject) : ℝ :=
  if curr.isSpinner then 0
  else
    let dist := min 125 (curr.travelDist + curr.lazyJumpDist)
    let deltaTime := max 45 curr.deltaTime
    let speedBonus : ℝ :=
      if deltaTime < 75 then 1 + ((75 - deltaTime) / 40) ^ 2 else 1
    let angleBonus : ℝ :=
      match curr.angle with
      | some angle =>
          if angle < 5 * (Real.pi / 6) then
            if angle < Real.pi / 2 then
              if dist < 90 ∧ angle < Real.pi / 4 then
                1.28 + (1 - 1.28) * min ((90 - dist) / 10) 1
              else if dist < 90 then
                1.28 + (1 - 1.28) * min ((90 - dist) / 10) 1 *
                  Real.sin ((Real.pi / 2 - angle) / (Real.pi / 4))
              else 1.28
            else 1 + (Real.sin (1.5 * (5 * (Real.pi / 6) - angle))) ^ 2 / 3.57
          else 1
      | none => 1
    (1 + (speedBonus - 1) * 0.75) * angleBonus *
      (0.95 + speedBonus * (dist / 125) ^ (3.5 : ℝ)) / curr.strainTime

/-- The strain-skill state shared by `Aim` and `Speed`
(`curr_strain` plus the `OsuStrainSkill` innards accessed through the
nested field paths of `aim.rs`/`speed.rs`). -/
structure SkillState where
  currStrain : ℝ
  currSectionPeak : ℝ
  currSectionEnd : ℝ
  strainPeaks : List ℝ
  objectStrains : List ℝ

/-- One pass of the section-rollover `while` body (`aim.rs` lines 78-83):
save the current peak, restart the section from the decayed strain at the
section boundary (`calculate_initial_strain`, lines 48-54), advance the
boundary by `SECTION_LEN = 400` (the constant surfaced in
`osu_2019/strains.rs` line 20). -/
noncomputable def rollovers (decayBase prevStart : ℝ) :
    Nat → SkillState → SkillState
  | 0, st => st
  | n + 1, st =>
      rollovers decayBase prevStart n
        { st with
          strainPeaks := st.strainPeaks ++ [st.currSectionPeak]
          currSectionPeak :=
            st.currStrain * strainDecay (st.currSectionEnd - prevStart) decayBase
          currSectionEnd := st.currSectionEnd + 400 }

/-- Number of iterations of `while curr.start_time > curr_section_end`
when the boundary advances by 400 each pass. -/
noncomputable def sectionSteps (t e : ℝ) : Nat :=
  if t ≤ e then 0 else ⌈(t - e) / 400⌉₊

/-- Mirrors `Skill::<Aim>::strain_value_at` (`aim.rs` lines 89-97): decay by the
object's `delta_time` with base 0.15, add the aim increment times the
skill multiplier 26.25, record the object strain. -/
noncomputable def aimStrainValueAt (st : SkillState)
    (curr : OsuDifficultyObject) (prev : Option OsuDifficultyObject) :
    SkillState :=
  let s := st.currStrain * strainDecay curr.deltaTime 0.15 +
    aimEvaluateDiffOf curr prev * 26.25
  { st with currStrain := s, objectStrains := st.objectStrains ++ [s] }

/-- Mirrors `Skill::<Speed>::strain_value_at` (`speed.rs` lines 103-112): decay by
the object's `strain_time` (not its delta time) with base 0.3, add the
speed increment times the skill multiplier 1400. -/
noncomputable def speedStrainValueAt (st : SkillState)
    (curr : OsuDifficultyObject) : SkillState :=
  let s := st.currStrain * strainDecay curr.strainTime 0.3 +
    speedEvaluateDiffOf curr * 1400
  { st with currStrain := s, objectStrains := st.objectStrains ++ [s] }

/-- Mirrors `Skill::<Aim>::process` (`aim.rs` lines 72-87). -/
noncomputable def aimProcess (st : SkillState) (curr : OsuDifficultyObject)
    (prev : Option OsuDifficultyObject) : SkillState :=
  let st0 := if curr.idx = 0 then
    { st with currSectionEnd := ((⌈curr.startTime / 400⌉ : ℤ) : ℝ) * 400 }
  else st
  let prevStart := prev.elim 0 (fun p => p.startTime)
  let st1 := rollovers 0.15 prevStart
    (sectionSteps curr.startTime st0.currSectionEnd) st0
  let st2 := aimStrainValueAt st1 curr prev
  { st2 with currSectionPeak := max st2.currStrain st2.currSectionPeak }

/-- Mirrors `Skill::<Speed>::process` (`speed.rs` lines 86-101). -/
noncomputable def speedProcess (st : SkillState) (curr : OsuDifficultyObject)
    (prev : Option OsuDifficultyObject) : SkillState :=
  let st0 := if curr.idx = 0 then
    { st with currSectionEnd := ((⌈curr.startTime / 400⌉ : ℤ) : ℝ) * 400 }
  else st
  let prevStart := prev.elim 0 (fun p => p.startTime)
  let st1 := rollovers 0.3 prevStart
    (sectionSteps curr.startTime st0.currSectionEnd) st0
  let st2 := speedStrainValueAt st1 curr
  { st2 with currSectionPeak := max st2.currStrain st2.currSectionPeak }

lemma rollovers_currStrain (decayBase prevStart : ℝ) :
    ∀ (n : Nat) (st : SkillState),
      (rollovers decayBase prevStart n st).currStrain = st.currStrain := by
  intro n
  induction n with
  | zero => intro st; rfl
  | succ m ih => intro st; exact ih _

lemma ite_currSectionEnd_currStrain (P : Prop) [Decidable P]
    (st : SkillState) (x : ℝ) :
    (if P then { st with currSectionEnd := x } else st).currStrain =
      st.currStrain := by
  split <;> rfl

/-- The counterexample difficulty object: a spinner (increment 0) whose
delta time (0 ms) and strain time (1000 ms) differ. -/
def cexObj : OsuDifficultyObject :=
  { idx := 5, startTime := 0, deltaTime := 0, strainTime := 1000
    lazyJumpDist := 0, travelDist := 0, angle := none, isSpinner := true }

/-- A skill state with running strain 1 and a far-away section end. -/
def cexSt : SkillState :=
  { currStrain := 1, currSectionPeak := 0, currSectionEnd := 1000000
    strainPeaks := [], objectStrains := [] }

end Skills

namespace Skills

lemma aimProcess_currStrain (st : SkillState) (curr : OsuDifficultyObject)
    (prev : Option OsuDifficultyObject) :
    (aimProcess st curr prev).currStrain =
      st.currStrain * strainDecay curr.deltaTime 0.15 +
        aimEvaluateDiffOf curr prev * 26.25 := by
  simp only [aimProcess, aimStrainValueAt]
  rw [rollovers_currStrain, ite_currSectionEnd_currStrain]

lemma speedProcess_currStrain (st : SkillState) (curr : OsuDifficultyObject)
    (prev : Option OsuDifficultyObject) :
    (speedProcess st curr prev).currStrain =
      st.currStrain * strainDecay curr.strainTime 0.3 +
        speedEvaluateDiffOf curr * 1400 := by
  simp only [speedProcess, speedStrainValueAt]
  rw [rollovers_currStrain, ite_currSectionEnd_currStrain]

end Skills

/-- C5, counterexample: for the Speed skill the decay uses the object's
strain time, not its delta time.  On a spinner with `delta_time = 0` and
`strain_time = 1000` starting from strain 1, `process()` leaves strain
`0.3^1 = 0.3`, while the claimed formula
`current_strain * decay_base^(delta_time/1000) + increment * multiplier`
gives `0.3^0 = 1`. -/
theorem speed_strain_decay_counterexample :
    (Skills.speedProcess Skills.cexSt Skills.cexObj none).currStrain ≠
      Skills.cexSt.currStrain *
        Skills.strainDecay Skills.cexObj.deltaTime 0.3 +
        Skills.speedEvaluateDiffOf Skills.cexObj * 1400 := by
  have hspin : Skills.speedEvaluateDiffOf Skills.cexObj = 0 := by
    simp [Skills.speedEvaluateDiffOf, Skills.cexObj]
  have hdecay1 : Skills.strainDecay 1000 0.3 = 0.3 := by
    unfold Skills.strainDecay
    rw [show (1000 : ℝ) / 1000 = 1 by norm_num, Real.rpow_one]
  have hdecay0 : Skills.strainDecay 0 0.3 = 1 := by
    unfold Skills.strainDecay
    rw [show (0 : ℝ) / 1000 = 0 by norm_num, Real.rpow_zero]
  rw [Skills.speedProcess_currStrain]
  simp only [Skills.cexSt, Skills.cexObj, hspin]
  rw [hdecay1, hdecay0]
  norm_num

/-- C5 (amended): the running strain after `process()` follows the decay
model `current_strain * decay_base^(t/1000) + strain_increment(object) *
skill_multiplier`, where the decayed time `t` is the object's delta time for
the Aim skill but the object's strain time (the delta time clamped to a
minimum) for the Speed skill. -/
theorem strain_process_decay_model (st : Skills.SkillState)
    (curr : Skills.OsuDifficultyObject)
    (prev : Option Skills.OsuDifficultyObject) :
    ((Skills.aimProcess st curr prev).currStrain =
      st.currStrain * Skills.strainDecay curr.deltaTime 0.15 +
        Skills.aimEvaluateDiffOf curr prev * 26.25) ∧
    ((Skills.speedProcess st curr prev).currStrain =
      st.currStrain * Skills.strainDecay curr.strainTime 0.3 +
        Skills.speedEvaluateDiffOf curr * 1400) :=
  ⟨Skills.aimProcess_currStrain st curr prev,
    Skills.speedProcess_currStrain st curr prev⟩

namespace Reduce

/-- Mirrors `lerp` (`osu_2019/skill.rs` lines 149-151). -/
noncomputable def lerp (start finish amount : ℝ) : ℝ :=
  start + (finish - start) * amount

/-- The per-index down-weighting factor of `Skill::difficulty_value`
(`osu_2019/skill.rs` lines 81-84):
`lerp(0.75, 1.0, log10(lerp(1.0, 10.0, clamp(i / R, 0, 1))))` (the `f32`
casts of the index ratio are modelled as exact reals). -/
noncomputable def reducedFactor (R i : Nat) : ℝ :=
  lerp 0.75 1 (Real.logb 10 (lerp 1 10 (min (max ((i : ℝ) / (R : ℝ)) 0) 1)))

/-- Scale the first `R` entries of a list by their indexed factor, leaving
the rest untouched (the `sorted_non_zero_iter_mut().take(R)` mutation of
lines 76-85). -/
noncomputable def scaleFirst (R : Nat) (l : List ℝ) : List ℝ :=
  ((l.take R).enum.map (fun p => p.2 * reducedFactor R p.1)) ++ l.drop R

/-- Sort descending (`StrainsVec::sort_desc`; `util/strains_vec.rs` is not
under the provided sources, so this follows the name and the spec's "sort
all peaks descending"). -/
noncomputable def sortDesc (l : List ℝ) : List ℝ :=
  List.insertionSort (fun a b : ℝ => b ≤ a) l

/-- The weighted accumulation loop of lines 89-92:
`difficulty += strain * weight; weight *= 0.9`. -/
noncomputable def weightedFoldAux : List ℝ → ℝ → ℝ → ℝ
  | [], diff, _ => diff
  | s :: rest, diff, weight => weightedFoldAux rest (diff + s * weight) (weight * 0.9)

/-- The final loop of `difficulty_value` starting from
`difficulty = 0.0, weight = 1.0`. -/
noncomputable def weightedFold (l : List ℝ) : ℝ := weightedFoldAux l 0 1

/-- The spec's closed-form reduction `value = Σ peak[i] * weight^i` with
decay weight 0.9. -/
noncomputable def specWeightedSum (l : List ℝ) : ℝ :=
  ∑ i ∈ Finset.range l.length, l.getD i 0 * (0.9 : ℝ) ^ i

/-- Mirrors `Skill::difficulty_value` (`osu_2019/skill.rs` lines 70-97).
`strain_peaks` is the stored peak list in chronological order;
`sorted_non_zero_iter_mut` — whose implementation (`util/strains_vec.rs`)
is not under the provided sources — is modelled per its name as mutable
iteration over the non-zero strains in descending order, after which
`sort_desc` sorts the whole (modified) storage descending. -/
noncomputable def difficultyValue (sectionLength : Nat) (peaks : List ℝ) : ℝ :=
  let R := 30000 / sectionLength
  let nz := sortDesc (peaks.filter (fun x => decide (x ≠ 0)))
  let zeros := peaks.filter (fun x => decide (x = 0))
  weightedFold (sortDesc (scaleFirst R nz ++ zeros))

/-- The reduction exactly as the claim words it: down-weight the first
`reducedSectionCount` peaks of the (chronological) section-peak list, then
sort all peaks descending and take the weighted sum. -/
noncomputable def claimDifficultyValue (sectionLength : Nat)
    (peaks : List ℝ) : ℝ :=
  let R := 30000 / sectionLength
  specWeightedSum (sortDesc (scaleFirst R peaks))

lemma specWeightedSum_nil : specWeightedSum [] = 0 := by
  simp [specWeightedSum]

lemma specWeightedSum_cons (s : ℝ) (rest : List ℝ) :
    specWeightedSum (s :: rest) = s + 0.9 * specWeightedSum rest := by
  unfold specWeightedSum
  rw [List.length_cons, Finset.sum_range_succ']
  simp only [List.getD_cons_succ, List.getD_cons_zero, pow_zero, mul_one]
  rw [Finset.mul_sum, add_comm]
  congr 1
  refine Finset.sum_congr rfl (fun i _ => ?_)
  ring

lemma weightedFoldAux_eq (l : List ℝ) :
    ∀ d w, weightedFoldAux l d w = d + w * specWeightedSum l := by
  induction l with
  | nil => intro d w; simp [weightedFoldAux, specWeightedSum_nil]
  | cons s rest ih =>
      intro d w
      rw [weightedFoldAux, ih, specWeightedSum_cons]
      ring

lemma weightedFold_eq (l : List ℝ) : weightedFold l = specWeightedSum l := by
  rw [weightedFold, weightedFoldAux_eq]
  ring

lemma reducedFactor_one_zero : reducedFactor 1 0 = 0.75 := by
  unfold reducedFactor lerp
  norm_num [Real.logb_one]

end Reduce

/-- C4, counterexample: with section length 30000 (reduced-section count 1)
and chronological peaks `[1, 2]`, the code down-weights the *largest*
non-zero peak (the sorted iteration), producing `[1.5, 1]` and the value
`1.5 + 0.9 = 2.4`, while the claim's "first" (chronological) peak reading
produces `[0.75, 2]`, sorted `[2, 0.75]`, and the value
`2 + 0.675 = 2.675`. -/
theorem difficulty_value_downweight_counterexample :
    Reduce.claimDifficultyValue 30000 [1, 2] ≠
      Reduce.difficultyValue 30000 [1, 2] := by
  have hcode : Reduce.difficultyValue 30000 [1, 2] = 2.4 := by
    unfold Reduce.difficultyValue
    norm_num [List.filter, Reduce.sortDesc, List.insertionSort,
      List.orderedInsert, Reduce.scaleFirst, List.enum,
      Reduce.reducedFactor_one_zero, Reduce.weightedFold,
      Reduce.weightedFoldAux]
  have hclaim : Reduce.claimDifficultyValue 30000 [1, 2] = 2.675 := by
    unfold Reduce.claimDifficultyValue
    norm_num [Reduce.sortDesc, List.insertionSort, List.orderedInsert,
      Reduce.scaleFirst, List.enum, Reduce.reducedFactor_one_zero,
      Reduce.specWeightedSum, Finset.sum_range_succ]
  rw [hcode, hclaim]
  norm_num

/-- C4 (amended): `difficulty_value()` equals the reduction that first
down-weights the first `reducedSectionCount = 30000 / section_length`
entries of the *non-zero peaks sorted in descending order* by the
log-interpolated factor ranging from the 0.75 baseline up to 1.0, then
sorts all (modified) peaks descending and sums `peak[i] * 0.9^i`; an empty
peak list yields difficulty value 0. -/
theorem difficulty_value_reduction (sectionLength : Nat) (peaks : List ℝ) :
    (Reduce.difficultyValue sectionLength peaks =
      Reduce.specWeightedSum (Reduce.sortDesc
        (Reduce.scaleFirst (30000 / sectionLength)
          (Reduce.sortDesc (peaks.filter (fun x => decide (x ≠ 0)))) ++
          peaks.filter (fun x => decide (x = 0))))) ∧
    Reduce.difficultyValue sectionLength [] = 0 := by
  constructor
  · unfold Reduce.difficultyValue
    rw [Reduce.weightedFold_eq]
  · unfold Reduce.difficultyValue
    simp [Reduce.sortDesc, Reduce.scaleFirst, Reduce.weightedFold,
      Reduce.weightedFoldAux]

namespace Perf

/-- Modelled from the spec: `OsuScoreState::total_hits` (the score-state
file is not under the provided sources); the spec's "total scored hits"
`n300 + n100 + n50 + misses`. -/
def totalHits (state : Gen.OsuScoreState) : Nat :=
  state.n300 + state.n100 + state.n50 + state.misses

/-- The mod queries consumed by the two `calculate()` implementations
(`GameMods` itself lives outside the provided sources; each query is an
independent boolean). `noSliderHeadAcc` takes the lazer flag as in
`mods.no_slider_head_acc(lazer)`. -/
structure GameMods where
  nf : Bool
  so : Bool
  rx : Bool
  ap : Bool
  hd : Bool
  tc : Bool
  bl : Bool
  fl : Bool
  td : Bool
  dt : Bool
  nc : Bool
  ht : Bool
  hr : Bool
  ez : Bool
  noSliderHeadAcc : Bool → Bool

/-- Mirrors `OsuDifficultyAttributes` of the relax port
(`src/osu_2019/attributes.rs` lines 3-21). -/
structure RelaxAttrs where
  aimStrain : ℝ
  speedStrain : ℝ
  ar : ℝ
  od : ℝ
  hp : ℝ
  cs : ℝ
  nCircles : Nat
  nSliders : Nat
  nSpinners : Nat
  stars : ℝ
  maxCombo : Nat
  aimDifficultStrainCount : ℝ
  speedDifficultStrainCount : ℝ
  beatmapId : Int
  beatmapCreator : String
  nSliderTicks : Nat

/-- Mirrors `OsuPerformanceAttributes` of the relax port
(`src/osu_2019/attributes.rs` lines 40-48). -/
structure RelaxPerfAttrs where
  difficulty : RelaxAttrs
  pp : ℝ
  ppAcc : ℝ
  ppAim : ℝ
  ppSpeed : ℝ
  effectiveMissCount : ℝ

/-- Mirrors `OsuPerformanceInner::calculate_miss_penalty`
(`src/osu_2019/performance/mod.rs` lines 874-877). -/
noncomputable def relaxMissPenalty (effectiveMissCount th : ℝ) : ℝ :=
  0.97 * (1 - (effectiveMissCount / th) ^ (0.5 : ℝ)) ^
    ((1 : ℝ) + effectiveMissCount / 1.5)

/-- Mirrors `OsuPerformanceInner::compute_aim_value`
(`src/osu_2019/performance/mod.rs` lines 729-795). -/
noncomputable def relaxAimValue (attrs : RelaxAttrs) (mods : GameMods)
    (acc : ℝ) (effectiveMissCount : ℝ) (th : ℝ) : ℝ :=
  let rawAim := if mods.td then attrs.aimStrain ^ (0.8 : ℝ) else attrs.aimStrain
  let aim0 := (5 * max (rawAim / 0.0675) 1 - 4) ^ (3 : ℕ) / 100000
  let lenBonus := 0.88 + 0.4 * min (th / 2000) 1 +
    (if th > 2000 then 1 else 0) * 0.5 * Real.logb 10 (th / 2000)
  let aim1 := aim0 * lenBonus
  let aim2 := if effectiveMissCount > 0 then
    aim1 * relaxMissPenalty effectiveMissCount th else aim1
  let arFactor0 := if attrs.ar > 10.33 then 0.3 * (attrs.ar - 10.33) else 0
  let arFactor := if attrs.ar < 8 then 0.025 * (8 - attrs.ar) else arFactor0
  let aim3 := aim2 * (1 + arFactor * lenBonus)
  let aim4 := if mods.hd then aim3 * (1 + 0.05 * (11 - attrs.ar)) else aim3
  let aim5 := if mods.fl then
    aim4 * (1 + 0.3 * min (th / 200) 1 +
      (if th > 200 then 1 else 0) * 0.25 * min ((th - 200) / 300) 1 +
      (if th > 500 then 1 else 0) * (th - 500) / 1600)
    else aim4
  let aim6 := if mods.ez then
    aim5 * (1.08 + (if attrs.ar ≤ 8 then (7 - attrs.ar) / 100 else 0))
    else aim5
  aim6 * (0.3 + acc / 2) * (0.98 + attrs.od * attrs.od / 2500)

/-- Mirrors `OsuPerformanceInner::compute_speed_value`
(`src/osu_2019/performance/mod.rs` lines 797-843). -/
noncomputable def relaxSpeedValue (attrs : RelaxAttrs) (mods : GameMods)
    (acc : ℝ) (effectiveMissCount : ℝ) (th : ℝ)
    (state : Gen.OsuScoreState) : ℝ :=
  let speed0 := (5 * max (attrs.speedStrain / 0.0675) 1 - 4) ^ (3 : ℕ) / 100000
  let lenBonus := 0.88 + 0.4 * min (th / 2000) 1 +
    (if th > 2000 then 1 else 0) * 0.5 * Real.logb 10 (th / 2000)
  let speed1 := speed0 * lenBonus
  let speed2 := if effectiveMissCount > 0 then
    speed1 * relaxMissPenalty effectiveMissCount th else speed1
  let arFactor0 := if attrs.ar > 10.33 then 0.3 * (attrs.ar - 10.33) else 0
  let arFactor := if attrs.ar < 8 then 0.025 * (8 - attrs.ar) else arFactor0
  let speed3 := speed2 * (1 + arFactor * lenBonus)
  let speed4 := if mods.hd then speed3 * (1 + 0.05 * (11 - attrs.ar)) else speed3
  let speed5 := speed4 * ((0.93 + attrs.od * attrs.od / 750) *
    acc ^ ((14.5 - max attrs.od 8) / 2))
  speed5 * (0.98 : ℝ) ^
    (if ((state.n50 : ℝ)) < th / 500 then (0 : ℝ) else (state.n50 : ℝ) - th / 500)

/-- Mirrors `OsuPerformanceInner::compute_accuracy_value`
(`src/osu_2019/performance/mod.rs` lines 845-872). -/
noncomputable def relaxAccValue (attrs : RelaxAttrs) (mods : GameMods)
    (th : ℝ) (state : Gen.OsuScoreState) : ℝ :=
  let nCircles : ℝ := attrs.nCircles
  let n300 : ℝ := state.n300
  let n100 : ℝ := state.n100
  let n50 : ℝ := state.n50
  let betterAccPercentage := (if nCircles > 0 then 1 else 0) *
    max (((n300 - (th - nCircles)) * 6 + n100 * 2 + n50) / (nCircles * 6)) 0
  let acc0 := (1.52163 : ℝ) ^ attrs.od * betterAccPercentage ^ (24 : ℕ) * 2.83
  let acc1 := acc0 * min ((nCircles / 1000) ^ (0.3 : ℝ)) 1.15
  let acc2 := if mods.hd then acc1 * 1.08 else acc1
  if mods.fl then acc2 * 1.02 else acc2

/-- Mirrors `OsuPerformanceInner::calculate` of the relax port
(`src/osu_2019/performance/mod.rs` lines 627-727), with the zero-hit
short-circuit at lines 630-635. -/
noncomputable def relaxCalculate (attrs : RelaxAttrs) (mods : GameMods)
    (acc : ℝ) (state : Gen.OsuScoreState) (effectiveMissCount : ℝ) :
    RelaxPerfAttrs :=
  if totalHits state = 0 then
    { difficulty := attrs, pp := 0, ppAcc := 0, ppAim := 0, ppSpeed := 0
      effectiveMissCount := 0 }
  else
    let th : ℝ := (totalHits state : ℝ)
    let multiplier : ℝ := 1.09 *
      (if mods.so then 1 - ((attrs.nSpinners : ℝ) / th) ^ (0.85 : ℝ) else 1)
    let aimValue := relaxAimValue attrs mods acc effectiveMissCount th
    let speedValue := relaxSpeedValue attrs mods acc effectiveMissCount th state
    let accValue := relaxAccValue attrs mods th state
    let streamsNerf := ((round (attrs.aimStrain / attrs.speedStrain * 100) : ℤ)
      : ℝ) / 100
    let accDepression : ℝ := if streamsNerf < 1.09 then
      max (0.86 - |1 - acc|) 0.5 else 1
    let aimValue2 := if streamsNerf < 1.09 ∧ accDepression > 0 then
      aimValue * accDepression else aimValue
    let nodtBonus : ℝ := if ¬ (mods.dt || mods.nc || mods.ht) then 1.02 else 1
    let pp0 := (aimValue2 ^ (1.185 * nodtBonus) +
      speedValue ^ (0.83 * accDepression) +
      accValue ^ (1.14 * nodtBonus)) ^ ((1 : ℝ) / 1.1) * multiplier
    let pp1 := if mods.dt ∧ mods.hr then pp0 * 1.025 else pp0
    let pp2 := if attrs.beatmapCreator = "gwb" ∨ attrs.beatmapCreator = "Plasma"
      then pp1 * 0.9 else pp1
    let pp3 :=
      if attrs.beatmapId = 1808605 then pp2 * 0.85
      else if attrs.beatmapId = 1821147 then pp2 * 0.70
      else if attrs.beatmapId = 1844776 then pp2 * 0.64
      else if attrs.beatmapId = 1777768 then pp2 * 0.90
      else if attrs.beatmapId = 1962833 then
        (pp2 * 0.885) * (if mods.dt then 0.83 else 1)
      else if attrs.beatmapId = 2403677 then pp2 * 0.85
      else if attrs.beatmapId = 2174272 then pp2 * 0.85
      else if attrs.beatmapId = 2382377 then pp2 * 0.85
      else pp2
    { difficulty := attrs, pp := pp3, ppAcc := accValue, ppAim := aimValue2
      ppSpeed := speedValue, effectiveMissCount := effectiveMissCount }

end Perf

namespace Perf

/-- The fields of the rosu-style `OsuDifficultyAttributes` consumed by
`OsuPerformanceInner` (`src/osu/performance/mod.rs`; the attribute struct
itself lives outside the provided sources). -/
structure RosuAttrs where
  aim : ℝ
  speed : ℝ
  flashlight : ℝ
  sliderFactor : ℝ
  speedNoteCount : ℝ
  ar : ℝ
  od : ℝ
  hp : ℝ
  nCircles : Nat
  nSliders : Nat
  nSliderTicks : Nat
  nSpinners : Nat
  maxCombo : Nat
  aimDifficultStrainCount : ℝ
  speedDifficultStrainCount : ℝ

/-- The rosu-style `OsuPerformanceAttributes` as constructed at
`src/osu/performance/mod.rs` lines 745-753. -/
structure RosuPerfAttrs where
  difficulty : RosuAttrs
  ppAcc : ℝ
  ppAim : ℝ
  ppFlashlight : ℝ
  ppSpeed : ℝ
  pp : ℝ
  effectiveMissCount : ℝ

/-- Mirrors `OsuPerformanceInner::calculate_miss_penalty`
(`src/osu/performance/mod.rs` lines 986-988). -/
noncomputable def rosuMissPenalty (missCount diffStrainCount : ℝ) : ℝ :=
  0.96 / ((missCount / (4 * (Real.log diffStrainCount) ^ (0.94 : ℝ))) + 1)

/-- Mirrors `OsuPerformanceInner::compute_aim_value` (`src/osu/performance/mod.rs`
lines 756-823); `d2p` stands in for the out-of-source
`OsuStrainSkill::difficulty_to_performance`. -/
noncomputable def rosuAimValue (d2p : ℝ → ℝ) (attrs : RosuAttrs)
    (mods : GameMods) (acc emc th : ℝ) (state : Gen.OsuScoreState) : ℝ :=
  if mods.ap then 0
  else
    let aim0 := d2p attrs.aim
    let lenBonus := 0.95 + 0.4 * min (th / 2000) 1 +
      (if th > 2000 then 1 else 0) * Real.logb 10 (th / 2000) * 0.5
    let aim1 := aim0 * lenBonus
    let aim2 := if emc > 0 then
      aim1 * rosuMissPenalty emc attrs.aimDifficultStrainCount else aim1
    let arFactor := if mods.rx then 0
      else if attrs.ar > 10.33 then 0.3 * (attrs.ar - 10.33)
      else if attrs.ar < 8 then 0.05 * (8 - attrs.ar)
      else 0
    let aim3 := aim2 * (1 + arFactor * lenBonus)
    let aim4 := if mods.bl then
        aim3 * (1.3 + (th * (0.0016 / (1 + 2 * emc)) * acc ^ (16 : ℝ)) *
          (1 - 0.003 * attrs.hp * attrs.hp))
      else if mods.hd || mods.tc then aim3 * (1 + 0.04 * (12 - attrs.ar))
      else aim3
    let estimateDiffSliders := (attrs.nSliders : ℝ) * 0.15
    let aim5 := if 0 < attrs.nSliders then
        let estimateSliderEndsDropped :=
          min (max ((min (state.n100 + state.n50 + state.misses)
            (attrs.maxCombo - state.maxCombo) : Nat) : ℝ) 0) estimateDiffSliders
        let sliderNerfFactor := (1 - attrs.sliderFactor) *
          (1 - estimateSliderEndsDropped / estimateDiffSliders) ^ (3 : ℝ) +
          attrs.sliderFactor
        aim4 * sliderNerfFactor
      else aim4
    aim5 * acc * (0.98 + attrs.od ^ (2 : ℝ) / 2500)

/-- Mirrors `OsuPerformanceInner::compute_speed_value` (`src/osu/performance/mod.rs`
lines 825-896). -/
noncomputable def rosuSpeedValue (d2p : ℝ → ℝ) (attrs : RosuAttrs)
    (mods : GameMods) (acc emc th : ℝ) (state : Gen.OsuScoreState) : ℝ :=
  if mods.rx then 0
  else
    let speed0 := d2p attrs.speed
    let lenBonus := 0.95 + 0.4 * min (th / 2000) 1 +
      (if th > 2000 then 1 else 0) * Real.logb 10 (th / 2000) * 0.5
    let speed1 := speed0 * lenBonus
    let speed2 := if emc > 0 then
      speed1 * rosuMissPenalty emc attrs.speedDifficultStrainCount else speed1
    let arFactor := if mods.ap then 0
      else if attrs.ar > 10.33 then 0.3 * (attrs.ar - 10.33)
      else 0
    let speed3 := speed2 * (1 + arFactor * lenBonus)
    let speed4 := if mods.bl then speed3 * 1.12
      else if mods.hd || mods.tc then speed3 * (1 + 0.04 * (12 - attrs.ar))
      else speed3
    let relevantTotalDiff := th - attrs.speedNoteCount
    let relevantN300 := max ((state.n300 : ℝ) - relevantTotalDiff) 0
    let relevantN100 :=
      max ((state.n100 : ℝ) - max (relevantTotalDiff - (state.n300 : ℝ)) 0) 0
    let relevantN50 := max ((state.n50 : ℝ) -
      max (relevantTotalDiff - ((state.n300 + state.n100 : Nat) : ℝ)) 0) 0
    let relevantAcc := if attrs.speedNoteCount = 0 then 0
      else (relevantN300 * 6 + relevantN100 * 2 + relevantN50) /
        (attrs.speedNoteCount * 6)
    let speed5 := speed4 * ((0.95 + attrs.od * attrs.od / 750) *
      ((acc + relevantAcc) / 2) ^ ((14.5 - attrs.od) / 2))
    speed5 * (0.99 : ℝ) ^
      ((if (state.n50 : ℝ) ≥ th / 500 then (1 : ℝ) else 0) *
        ((state.n50 : ℝ) - th / 500))

/-- Mirrors `OsuPerformanceInner::compute_accuracy_value`
(`src/osu/performance/mod.rs` lines 898-948). -/
noncomputable def rosuAccValue (attrs : RosuAttrs) (mods : GameMods)
    (usingClassicSliderAcc : Bool) (state : Gen.OsuScoreState) : ℝ :=
  if mods.rx then 0
  else
    let amountHitObjectsWithAcc : Nat :=
      attrs.nCircles + (if usingClassicSliderAcc then 0 else attrs.nSliders)
    let betterAccPercentage : ℝ :=
      if 0 < amountHitObjectsWithAcc then
        let sub := totalHits state - amountHitObjectsWithAcc
        if state.n300 < sub then 0
        else (((state.n300 - sub) * 6 + state.n100 * 2 + state.n50 : Nat) : ℝ) /
          ((amountHitObjectsWithAcc * 6 : Nat) : ℝ)
      else 0
    let acc0 := (1.52163 : ℝ) ^ attrs.od *
      betterAccPercentage ^ (24 : ℝ) * 2.83
    let acc1 := acc0 *
      min (((amountHitObjectsWithAcc : ℝ) / 1000) ^ (0.3 : ℝ)) 1.15
    let acc2 := if mods.bl then acc1 * 1.14
      else if mods.hd || mods.tc then acc1 * 1.08
      else acc1
    if mods.fl then acc2 * 1.02 else acc2

/-- Mirrors `OsuPerformanceInner::compute_flashlight_value`
(`src/osu/performance/mod.rs` lines 950-981); `fl2p` stands in for the
out-of-source `Flashlight::difficulty_to_performance`. -/
noncomputable def rosuFlashlightValue (fl2p : ℝ → ℝ) (attrs : RosuAttrs)
    (mods : GameMods) (acc emc th : ℝ) (state : Gen.OsuScoreState) : ℝ :=
  if ¬ mods.fl then 0
  else
    let fl0 := fl2p attrs.flashlight
    let fl1 := if emc > 0 then
      fl0 * (0.97 * (1 - (emc / th) ^ (0.775 : ℝ)) ^ (emc ^ (0.875 : ℝ)))
      else fl0
    let comboScaling := if attrs.maxCombo = 0 then 1
      else min ((state.maxCombo : ℝ) ^ (0.8 : ℝ) /
        (attrs.maxCombo : ℝ) ^ (0.8 : ℝ)) 1
    let fl2 := fl1 * comboScaling
    let fl3 := fl2 * (0.7 + 0.1 * min (th / 200) 1 +
      (if th > 200 then 1 else 0) * 0.2 * min ((th - 200) / 200) 1)
    fl3 * (0.5 + acc / 2) * (0.98 + attrs.od ^ (2 : ℝ) / 2500)

/-- Mirrors `OsuPerformanceInner::calculate` (`src/osu/performance/mod.rs` lines
687-754), with the zero-hit short-circuit at lines 692-697. -/
noncomputable def rosuCalculate (d2p fl2p : ℝ → ℝ) (attrs : RosuAttrs)
    (mods : GameMods) (acc : ℝ) (state : Gen.OsuScoreState)
    (effectiveMissCount : ℝ) (lazer : Bool) : RosuPerfAttrs :=
  let usingClassicSliderAcc := mods.noSliderHeadAcc lazer
  if totalHits state = 0 then
    { difficulty := attrs, ppAcc := 0, ppAim := 0, ppFlashlight := 0
      ppSpeed := 0, pp := 0, effectiveMissCount := 0 }
  else
    let th : ℝ := (totalHits state : ℝ)
    let mult0 : ℝ := 1.15
    let mult1 := if mods.nf then
      mult0 * max (1 - 0.02 * effectiveMissCount) 0.9 else mult0
    let mult2 := if mods.so ∧ th > 0 then
      mult1 * (1 - ((attrs.nSpinners : ℝ) / th) ^ (0.85 : ℝ)) else mult1
    let emc := if mods.rx then
        let n100Mult := if attrs.od > 0 then
          1 - (attrs.od / 13.33) ^ (1.8 : ℝ) else 1
        let n50Mult := if attrs.od > 0 then
          1 - (attrs.od / 13.33) ^ (5 : ℝ) else 1
        min (effectiveMissCount + (state.n100 : ℝ) + n100Mult +
          (state.n50 : ℝ) * n50Mult) th
      else effectiveMissCount
    let aimValue := rosuAimValue d2p attrs mods acc emc th state
    let speedValue := rosuSpeedValue d2p attrs mods acc emc th state
    let accValue := rosuAccValue attrs mods usingClassicSliderAcc state
    let flashlightValue := rosuFlashlightValue fl2p attrs mods acc emc th state
    let pp := (aimValue ^ (1.1 : ℝ) + speedValue ^ (1.1 : ℝ) +
      accValue ^ (1.1 : ℝ) + flashlightValue ^ (1.1 : ℝ)) ^ ((1 : ℝ) / 1.1) *
      mult2
    { difficulty := attrs, ppAcc := accValue, ppAim := aimValue
      ppFlashlight := flashlightValue, ppSpeed := speedValue, pp := pp
      effectiveMissCount := emc }

end Perf

/-- C2: for every performance calculation whose score state has zero total
scored hits (`n300 + n100 + n50 + misses = 0`), `calculate()` returns the
default/zero performance attributes carrying only the difficulty attributes
(pp = 0 and every per-skill pp sub-value 0), skipping all pp formulas; this
covers both compiled implementations, the rosu-style one in
`src/osu/performance/mod.rs` (for every instantiation of the out-of-source
difficulty-to-performance helpers) and the relax port in
`src/osu_2019/performance/mod.rs`. -/
theorem calculate_zero_hits_default (d2p fl2p : ℝ → ℝ)
    (rosuAttrs : Perf.RosuAttrs) (relaxAttrs : Perf.RelaxAttrs)
    (mods : Perf.GameMods) (acc : ℝ) (state : Gen.OsuScoreState)
    (emc : ℝ) (lazer : Bool) (h : Perf.totalHits state = 0) :
    Perf.rosuCalculate d2p fl2p rosuAttrs mods acc state emc lazer =
      { difficulty := rosuAttrs, ppAcc := 0, ppAim := 0, ppFlashlight := 0
        ppSpeed := 0, pp := 0, effectiveMissCount := 0 } ∧
    Perf.relaxCalculate relaxAttrs mods acc state emc =
      { difficulty := relaxAttrs, pp := 0, ppAcc := 0, ppAim := 0
        ppSpeed := 0, effectiveMissCount := 0 } := by
  constructor
  · unfold Perf.rosuCalculate
    rw [if_pos h]
  · unfold Perf.relaxCalculate
    rw [if_pos h]

/-- Witness for C2: the all-zero score state on concrete attributes. -/
theorem calculate_zero_hits_default_witness :
    Perf.totalHits ⟨0, 0, 0, 0, 0, 0, 0⟩ = 0 ∧
    (Perf.rosuCalculate id id
        ⟨1, 2, 3, 0.5, 4, 9, 8, 5, 10, 5, 20, 1, 300, 6, 7⟩
        ⟨false, false, false, false, false, false, false, false, false,
          false, false, false, false, false, fun _ => false⟩
        1 ⟨0, 0, 0, 0, 0, 0, 0⟩ 0 true =
      { difficulty := ⟨1, 2, 3, 0.5, 4, 9, 8, 5, 10, 5, 20, 1, 300, 6, 7⟩
        ppAcc := 0, ppAim := 0, ppFlashlight := 0, ppSpeed := 0, pp := 0
        effectiveMissCount := 0 } ∧
    Perf.relaxCalculate
        ⟨1, 2, 9, 8, 5, 4, 10, 5, 1, 6, 300, 6, 7, 42, "x", 20⟩
        ⟨false, false, false, false, false, false, false, false, false,
          false, false, false, false, false, fun _ => false⟩
        1 ⟨0, 0, 0, 0, 0, 0, 0⟩ 0 =
      { difficulty := ⟨1, 2, 9, 8, 5, 4, 10, 5, 1, 6, 300, 6, 7, 42, "x", 20⟩
        pp := 0, ppAcc := 0, ppAim := 0, ppSpeed := 0
        effectiveMissCount := 0 }) :=
  ⟨rfl, calculate_zero_hits_default id id _ _ _ 1 _ 0 true rfl⟩

namespace Taiko

/-- Modelled from the spec: each raw hit object from the third one onward
produces exactly one difficulty object whose base object it is (the taiko
difficulty-object pipeline is not under the provided sources; the comment at
`src/taiko/difficulty/gradual.rs` lines 141-144 records this correspondence,
and objects are represented by whatever data `isHit` needs). -/
def diffObjs {α : Type} (raws : List α) : List α := raws.drop 2

/-- Mirrors `FirstTwoCombos` (`src/taiko/difficulty/gradual.rs` lines 63-69). -/
inductive FirstTwoCombos
  | none
  | onlyFirst
  | onlySecond
  | both

/-- Mirrors the `first_combos` computation of `TaikoGradualDifficulty::new`
(`src/taiko/difficulty/gradual.rs` lines 77-85). -/
def firstCombos {α : Type} (isHit : α → Bool) (raws : List α) : FirstTwoCombos :=
  match raws[0]?.map isHit, raws[1]?.map isHit with
  | Option.none, _ => .none
  | some false, some false => .none
  | some false, Option.none => .none
  | some true, some false => .onlyFirst
  | some true, Option.none => .onlyFirst
  | some false, some true => .onlySecond
  | some true, some true => .both

/-- Mirrors the mutable state of `TaikoGradualDifficulty`
(`src/taiko/difficulty/gradual.rs` lines 52-61): the object index, the
remainder of the difficulty-object iterator, the running `attrs.max_combo`,
and — standing in for the three skills, which are a deterministic function of
the sequence of difficulty objects they were fed — that processed sequence. -/
structure GState (α : Type) where
  idx : Nat
  remaining : List α
  combo : Nat
  processed : List α

/-- Mirrors the fresh iterator produced by `TaikoGradualDifficulty::new`
(`src/taiko/difficulty/gradual.rs` lines 117-126). -/
def mkGradual {α : Type} (raws : List α) : GState α :=
  { idx := 0, remaining := diffObjs raws, combo := 0, processed := [] }

/-- Mirrors `total_hits` (`src/taiko/difficulty/gradual.rs` lines 109-113):
the number of hittable (circle) raw objects. -/
def totalHits {α : Type} (isHit : α → Bool) (raws : List α) : Nat :=
  (raws.filter isHit).length

/-- Mirrors the inner consume loop shared by `next` and `nth`
(`src/taiko/difficulty/gradual.rs` lines 146-159 and 242-255): pop difficulty
objects off the iterator, feeding each one to the skills, until one whose base
is a hit is found; `Option.none` models iterator exhaustion (the `?`
operator). Returns the grown processed sequence and the iterator remainder. -/
def consumeUntilHit {α : Type} (isHit : α → Bool) :
    List α → List α → Option (List α × List α)
  | [], _ => Option.none
  | o :: rest, proc =>
    if isHit o then some (proc ++ [o], rest)
    else consumeUntilHit isHit rest (proc ++ [o])

/-- Mirrors `TaikoGradualDifficulty::next` (`src/taiko/difficulty/gradual.rs`
lines 140-188). The returned `TaikoDifficultyAttributes` are a function of
the skills and the running max combo, so the model returns the updated state,
from which `itemOf` extracts exactly that data. -/
def nextG {α : Type} (isHit : α → Bool) (raws : List α) (fc : FirstTwoCombos)
    (st : GState α) : Option (GState α) :=
  if 2 ≤ st.idx then
    (consumeUntilHit isHit st.remaining st.processed).map fun pr =>
      { idx := st.idx + 1, remaining := pr.2, combo := st.combo + 1
        processed := pr.1 }
  else if (diffObjs raws).isEmpty then Option.none
  else
    let combo :=
      match fc, st.idx with
      | .onlyFirst, _ => 1
      | .onlySecond, 1 => 1
      | .both, 0 => 1
      | .both, 1 => 2
      | _, _ => st.combo
    some { st with idx := st.idx + 1, combo := combo }

/-- Mirrors the `for _ in 0..take` loop of `TaikoGradualDifficulty::nth`
(`src/taiko/difficulty/gradual.rs` lines 241-256): each round consumes
difficulty objects up to and including the next hittable one, bumping the
combo and the object index. -/
def consumeN {α : Type} (isHit : α → Bool) : Nat → GState α → Option (GState α)
  | 0, st => some st
  | k + 1, st =>
    (consumeUntilHit isHit st.remaining st.processed).bind fun pr =>
      consumeN isHit k
        { idx := st.idx + 1, remaining := pr.2, combo := st.combo + 1
          processed := pr.1 }

/-- Mirrors the combo table of the `(1, 0)` arm of `nth`
(`src/taiko/difficulty/gradual.rs` lines 206-211). -/
def comboA (fc : FirstTwoCombos) (c : Nat) : Nat :=
  match fc with
  | .onlyFirst => 1
  | .both => 1
  | _ => c

/-- Mirrors the combo table shared by the `(_, 0)` and `(_, 1)` arms of `nth`
(`src/taiko/difficulty/gradual.rs` lines 217-222 and 228-233). -/
def comboB (fc : FirstTwoCombos) (c : Nat) : Nat :=
  match fc with
  | .none => c
  | .onlyFirst => 1
  | .onlySecond => 1
  | .both => 2

/-- Mirrors `TaikoGradualDifficulty::nth` (`src/taiko/difficulty/gradual.rs`
lines 196-259): `take = min(n, len().saturating_sub(1))` with
`len() = total_hits - idx`, the `(take, idx)` match adjusting for the first
two notes (which have no difficulty object but may add to combo), the consume
loop, then a final `next`. -/
def nthG {α : Type} (isHit : α → Bool) (raws : List α) (fc : FirstTwoCombos)
    (n : Nat) (st : GState α) : Option (GState α) :=
  let take0 := min n (totalHits isHit raws - st.idx - 1)
  let st1 : Nat × GState α :=
    if 2 ≤ st.idx ∨ take0 = 0 then (take0, st)
    else if take0 = 1 ∧ st.idx = 0 then
      (take0 - 1, { st with idx := st.idx + 1, combo := comboA fc st.combo })
    else if st.idx = 0 then
      (take0 - 2, { st with idx := st.idx + 2, combo := comboB fc st.combo })
    else
      (take0 - 1, { st with idx := st.idx + 1, combo := comboB fc st.combo })
  (consumeN isHit st1.1 st1.2).bind (nextG isHit raws fc)

/-- Extracts the data determining the returned attributes of a gradual step:
the difficulty-object sequence fed to the skills and the running max combo. -/
def itemOf {α : Type} (st : GState α) : List α × Nat := (st.processed, st.combo)

/-- Modelled from the spec: the one-shot difficulty calculation with
`passed_objects = p` feeds the skills the difficulty objects arising from the
first `p` raw objects (one per raw object from the third on) and counts every
hittable note among those `p` objects toward max combo. -/
def oneShot {α : Type} (isHit : α → Bool) (raws : List α) (p : Nat) :
    List α × Nat :=
  ((raws.take p).drop 2, ((raws.take p).filter isHit).length)

end Taiko

namespace Taiko

theorem consumeN_of_allHit {α : Type} (isHit : α → Bool) (k : Nat)
    (st : GState α) (hall : ∀ o ∈ st.remaining, isHit o = true)
    (hk : k ≤ st.remaining.length) :
    consumeN isHit k st =
      some { idx := st.idx + k, remaining := st.remaining.drop k
             combo := st.combo + k
             processed := st.processed ++ st.remaining.take k } := by
  induction k generalizing st with
  | zero => simp [consumeN]
  | succ k ih =>
    obtain ⟨i, rem, c, p⟩ := st
    cases rem with
    | nil => simp at hk
    | cons o rest =>
      have ho : isHit o = true := hall o (List.mem_cons_self o rest)
      have hall' : ∀ x ∈ rest, isHit x = true :=
        fun x hx => hall x (List.mem_cons_of_mem o hx)
      have hk' : k ≤ rest.length := by
        simp only [List.length_cons] at hk; omega
      have ihk := ih ⟨i + 1, rest, c + 1, p ++ [o]⟩ hall' hk'
      simp only [consumeN, consumeUntilHit, ho, if_true, Option.some_bind]
      rw [ihk]
      simp only [Option.some.injEq, GState.mk.injEq, List.drop_succ_cons,
        List.take_succ_cons]
      refine ⟨by omega, by simp, by omega, by simp⟩

theorem nextG_eq_consumeN_one {α : Type} (isHit : α → Bool) (raws : List α)
    (fc : FirstTwoCombos) (st : GState α) (hidx : 2 ≤ st.idx) :
    nextG isHit raws fc st = consumeN isHit 1 st := by
  simp only [nextG, hidx, if_true, consumeN]
  cases consumeUntilHit isHit st.remaining st.processed <;> simp

end Taiko

/-- C1 counterexample: on the four-object map `[hit, hit, non-hit, hit]`
(objects represented by their hittability flag, `isHit = id`), the taiko
gradual iterator's `nth(2)` — which per the claim should advance by exactly
3 raw hit objects and match the one-shot calculation with
`passed_objects = 3` — instead advances to the third *hittable* note,
consuming the interleaved non-hit object as well: it returns the state with
both difficulty objects processed and max combo 3, whereas the one-shot run
with `passed_objects = 3` feeds the skills one difficulty object and reaches
max combo 2. -/
theorem taiko_gradual_nth_counterexample :
    (Taiko.nthG id [true, true, false, true]
        (Taiko.firstCombos id [true, true, false, true]) 2
        (Taiko.mkGradual [true, true, false, true])).map Taiko.itemOf =
      some ([false, true], 3) ∧
    Taiko.oneShot id [true, true, false, true] 3 = ([false], 2) := by
  constructor <;> rfl

/-- C1 (amended): on maps all of whose raw objects are hittable notes and
that have at least three objects, the taiko gradual iterator's `nth(N)` from
the fresh state agrees with the one-shot calculation run with
`passed_objects = min(N + 1, object count)`: it feeds the skills the same
difficulty-object sequence and reports the same max combo. (With non-hit
objects interleaved the equivalence fails, see the counterexample: `nth`
advances to the (N+1)-th hittable note, consuming non-hit objects beyond the
claimed N+1 raw objects.) -/
theorem taiko_gradual_nth_equiv {α : Type} (isHit : α → Bool) (raws : List α)
    (n : Nat) (hall : ∀ o ∈ raws, isHit o = true) (hlen : 3 ≤ raws.length) :
    (Taiko.nthG isHit raws (Taiko.firstCombos isHit raws) n
        (Taiko.mkGradual raws)).map Taiko.itemOf =
      some (Taiko.oneShot isHit raws (min (n + 1) raws.length)) := by
  cases raws with
  | nil => simp at hlen
  | cons a l1 =>
  cases l1 with
  | nil => simp at hlen
  | cons b l2 =>
  cases l2 with
  | nil => simp at hlen
  | cons c rs =>
  have ha : isHit a = true := hall a (by simp)
  have hb : isHit b = true := hall b (by simp)
  have hcrs : ∀ x ∈ c :: rs, isHit x = true := fun x hx =>
    hall x (List.mem_cons_of_mem a (List.mem_cons_of_mem b hx))
  have hfc : Taiko.firstCombos isHit (a :: b :: c :: rs) =
      Taiko.FirstTwoCombos.both := by
    simp [Taiko.firstCombos, ha, hb]
  have htot : Taiko.totalHits isHit (a :: b :: c :: rs) = rs.length + 3 := by
    show ((a :: b :: c :: rs).filter isHit).length = rs.length + 3
    rw [List.filter_eq_self.mpr hall]
    simp only [List.length_cons]
  rcases Nat.lt_or_ge n 2 with h2 | h2
  · interval_cases n
    · have hL : (Taiko.nthG isHit (a :: b :: c :: rs)
          (Taiko.firstCombos isHit (a :: b :: c :: rs)) 0
          (Taiko.mkGradual (a :: b :: c :: rs))).map Taiko.itemOf =
          some ([], 1) := by
        simp only [Taiko.nthG, Taiko.mkGradual, Taiko.diffObjs,
          List.drop_succ_cons, List.drop_zero, hfc]
        rw [Nat.zero_min, if_pos (Or.inr rfl)]
        show (Taiko.nextG isHit (a :: b :: c :: rs) Taiko.FirstTwoCombos.both
            ⟨0, c :: rs, 0, []⟩).map Taiko.itemOf = some ([], 1)
        simp [Taiko.nextG, Taiko.diffObjs, Taiko.itemOf]
      have hR : Taiko.oneShot isHit (a :: b :: c :: rs)
          (min (0 + 1) (a :: b :: c :: rs).length) = ([], 1) := by
        rw [show min (0 + 1) ((a :: b :: c :: rs : List α)).length = 1 from by
          simp only [List.length_cons]; omega]
        simp [Taiko.oneShot, ha]
      rw [hL]
      exact congrArg some hR.symm
    · have hm : min 1 (Taiko.totalHits isHit (a :: b :: c :: rs) - 0 - 1) =
          1 := by
        rw [htot]; omega
      have hL : (Taiko.nthG isHit (a :: b :: c :: rs)
          (Taiko.firstCombos isHit (a :: b :: c :: rs)) 1
          (Taiko.mkGradual (a :: b :: c :: rs))).map Taiko.itemOf =
          some ([], 2) := by
        simp only [Taiko.nthG, Taiko.mkGradual, Taiko.diffObjs,
          List.drop_succ_cons, List.drop_zero, hfc]
        rw [hm]
        rw [if_neg (by omega : ¬(2 ≤ (0 : Nat) ∨ (1 : Nat) = 0)),
          if_pos (⟨rfl, trivial⟩ : (1 : Nat) = 1 ∧ True)]
        show (Taiko.nextG isHit (a :: b :: c :: rs) Taiko.FirstTwoCombos.both
            ⟨1, c :: rs, 1, []⟩).map Taiko.itemOf = some ([], 2)
        simp [Taiko.nextG, Taiko.diffObjs, Taiko.itemOf]
      have hR : Taiko.oneShot isHit (a :: b :: c :: rs)
          (min (1 + 1) (a :: b :: c :: rs).length) = ([], 2) := by
        rw [show min (1 + 1) ((a :: b :: c :: rs : List α)).length = 2 from by
          simp only [List.length_cons]; omega]
        simp [Taiko.oneShot, ha, hb]
      rw [hL]
      exact congrArg some hR.symm
  · obtain ⟨m, rfl⟩ : ∃ m, n = m + 2 := ⟨n - 2, by omega⟩
    obtain ⟨t, ht⟩ : ∃ t,
        min (m + 2) (Taiko.totalHits isHit (a :: b :: c :: rs) - 0 - 1) = t :=
      ⟨_, rfl⟩
    have ht2 := ht
    rw [htot] at ht2
    have h2t : 2 ≤ t := by omega
    have htle : t ≤ rs.length + 2 := by omega
    have hL : (Taiko.nthG isHit (a :: b :: c :: rs)
        (Taiko.firstCombos isHit (a :: b :: c :: rs)) (m + 2)
        (Taiko.mkGradual (a :: b :: c :: rs))).map Taiko.itemOf =
        some ((c :: rs).take (t - 1), t + 1) := by
      simp only [Taiko.nthG, Taiko.mkGradual, Taiko.diffObjs,
        List.drop_succ_cons, List.drop_zero, hfc]
      rw [ht]
      rw [if_neg (by omega : ¬(2 ≤ (0 : Nat) ∨ t = 0)),
        if_neg ((fun h => absurd h.1 (by omega)) : ¬(t = 1 ∧ True)),
        if_pos trivial]
      show ((Taiko.consumeN isHit (t - 2) ⟨2, c :: rs, 2, []⟩).bind
          (Taiko.nextG isHit (a :: b :: c :: rs)
            Taiko.FirstTwoCombos.both)).map Taiko.itemOf =
        some ((c :: rs).take (t - 1), t + 1)
      rw [Taiko.consumeN_of_allHit isHit (t - 2) ⟨2, c :: rs, 2, []⟩ hcrs
        (by show t - 2 ≤ (c :: rs).length; simp only [List.length_cons]; omega)]
      simp only [Option.some_bind]
      show (Taiko.nextG isHit (a :: b :: c :: rs) Taiko.FirstTwoCombos.both
          ⟨2 + (t - 2), (c :: rs).drop (t - 2), 2 + (t - 2),
            (c :: rs).take (t - 2)⟩).map Taiko.itemOf =
        some ((c :: rs).take (t - 1), t + 1)
      rw [Taiko.nextG_eq_consumeN_one isHit (a :: b :: c :: rs)
        Taiko.FirstTwoCombos.both
        ⟨2 + (t - 2), (c :: rs).drop (t - 2), 2 + (t - 2),
          (c :: rs).take (t - 2)⟩
        (by show 2 ≤ 2 + (t - 2); omega)]
      rw [Taiko.consumeN_of_allHit isHit 1
        ⟨2 + (t - 2), (c :: rs).drop (t - 2), 2 + (t - 2),
          (c :: rs).take (t - 2)⟩
        (fun x hx => hcrs x (List.mem_of_mem_drop hx))
        (by show 1 ≤ ((c :: rs).drop (t - 2)).length
            simp only [List.length_drop, List.length_cons]; omega)]
      simp only [Option.map_some', Taiko.itemOf]
      have hproc : (c :: rs).take (t - 2) ++ ((c :: rs).drop (t - 2)).take 1 =
          (c :: rs).take (t - 1) := by
        rw [← List.take_add]
        congr 1
        omega
      rw [hproc]
      simp only [Option.some.injEq, Prod.mk.injEq]
      exact ⟨trivial, by omega⟩
    have hR : Taiko.oneShot isHit (a :: b :: c :: rs)
        (min (m + 2 + 1) (a :: b :: c :: rs).length) =
        ((c :: rs).take (t - 1), t + 1) := by
      rw [show min (m + 2 + 1) ((a :: b :: c :: rs : List α)).length = t + 1
        from by simp only [List.length_cons]; omega]
      have htk : (a :: b :: c :: rs).take (t + 1) =
          a :: b :: (c :: rs).take (t - 1) := by
        obtain ⟨u, hu⟩ : ∃ u, t = u + 1 := ⟨t - 1, by omega⟩
        subst hu
        rw [List.take_succ_cons, List.take_succ_cons,
          show u + 1 - 1 = u from by omega]
      have hfil : (a :: b :: (c :: rs).take (t - 1)).filter isHit =
          a :: b :: (c :: rs).take (t - 1) := by
        refine List.filter_eq_self.mpr ?_
        intro x hx
        rcases List.mem_cons.mp hx with rfl | hx
        · exact ha
        rcases List.mem_cons.mp hx with rfl | hx
        · exact hb
        · exact hcrs x (List.mem_of_mem_take hx)
      simp only [Taiko.oneShot, htk, List.drop_succ_cons, List.drop_zero,
        hfil, List.length_cons, List.length_take, Prod.mk.injEq]
      exact ⟨trivial, by omega⟩
    rw [hL]
    exact congrArg some hR.symm

/-- Witness for the amended C1 theorem: the all-hit four-object map at
`n = 1`. -/
theorem taiko_gradual_nth_equiv_witness :
    (∀ o ∈ [true, true, true, true], id o = true) ∧
    3 ≤ [true, true, true, true].length ∧
    (Taiko.nthG id [true, true, true, true]
        (Taiko.firstCombos id [true, true, true, true]) 1
        (Taiko.mkGradual [true, true, true, true])).map Taiko.itemOf =
      some (Taiko.oneShot id [true, true, true, true]
        (min (1 + 1) [true, true, true, true].length)) :=
  ⟨by decide, by decide,
    taiko_gradual_nth_equiv id [true, true, true, true] 1 (by decide)
      (by decide)⟩
